import Mathlib

/-!
Shallow embedding of the fleet-rental backend's core: the contract
lifecycle manager (`ContractService`), the billing engine
(`BillingService`), the debt/ledger queries, and the analytics metric
upsert (`AnalyticsService.saveMetric`).

Modelling conventions:
* money (Prisma `Decimal` / JS numbers) is `ℚ`;
* timestamps are `Nat` day indices; `now` is passed explicitly where the
  source calls `new Date()`;
* database ids are `String`; ids generated by the database (`cuid()`) are
  passed in explicitly as `newId` parameters;
* a thrown Nest exception is `Except.error` with a distinct constructor
  per `throw` site; the Prisma `$transaction` bodies are separate pure
  state-to-state functions, so an error result corresponds to a run that
  performed no write (every `throw` in the source precedes the
  transaction, and the transaction is atomic);
* payment `description` strings are represented by the inductive
  `PayDesc`; the source tags failed billing attempts by an error prefix
  in the description and later detects it with a substring check, which
  `PayDesc.hasErrTag` reflects (only failed-rent descriptions carry the
  tag).
-/

namespace Fleet

/-- The `UserRole` enum of the Prisma schema. -/
inductive UserRole
  | SUPER_ADMIN
  | COMPANY_ADMIN
  | COMPANY_MANAGER
  | DRIVER
  deriving DecidableEq

/-- The `VehicleStatus` enum of the Prisma schema. -/
inductive VehicleStatus
  | AVAILABLE
  | RENTED
  | MAINTENANCE
  | INACTIVE
  deriving DecidableEq

/-- The `ContractStatus` enum of the Prisma schema. -/
inductive ContractStatus
  | ACTIVE
  | COMPLETED
  | TERMINATED
  | SUSPENDED
  deriving DecidableEq

/-- The `PaymentType` enum of the Prisma schema. -/
inductive PaymentType
  | PAYMENT
  | FINE
  | BONUS
  | DAILY_RENT
  | DEPOSIT
  | REFUND
  deriving DecidableEq

/-- The `AnalyticsType` enum (metric kinds stored in the analytics cache). -/
inductive AnalyticsType
  | REVENUE
  | EXPENSES
  | VEHICLE_UTILIZATION
  | DRIVER_KPI
  deriving DecidableEq

/-- Driver row (`model Driver`): the fields the core logic reads. -/
structure Driver where
  id : String
  companyId : String
  balance : ℚ
  deposit : ℚ
  isActive : Bool
  deriving DecidableEq

/-- Vehicle row (`model Vehicle`): the fields the core logic reads. -/
structure Vehicle where
  id : String
  companyId : String
  status : VehicleStatus
  deriving DecidableEq

/-- Contract row (`model Contract`). -/
structure Contract where
  id : String
  driverId : String
  vehicleId : String
  companyId : String
  dailyRate : ℚ
  deposit : ℚ
  startDate : Nat
  endDate : Option Nat
  status : ContractStatus
  deriving DecidableEq

/-- Payment descriptions built by the core.  The source stores free-form
strings; failed billing attempts are the only ones written with the
error prefix that `getTodayBillingStats` later looks for. -/
inductive PayDesc
  | rent
  | rentError (msg : String)
  | depositHold (contractId : String)
  | depositRefund (contractId : String)
  deriving DecidableEq

/-- Whether a description carries the failed-billing error tag
(the source checks `description.includes(tag)`; among descriptions the
core writes, exactly the failed-rent ones contain it). -/
def PayDesc.hasErrTag : PayDesc → Bool
  | .rentError _ => true
  | _ => false

/-- Payment (ledger) row (`model Payment`). -/
structure Payment where
  amount : ℚ
  ptype : PaymentType
  desc : PayDesc
  date : Nat
  driverId : String
  contractId : Option String
  companyId : String
  createdById : Option String
  deriving DecidableEq

/-- The database state the core operations read and write. -/
structure St where
  drivers : List Driver
  vehicles : List Vehicle
  contracts : List Contract
  payments : List Payment
  deriving DecidableEq

/-- The empty database. -/
def St.empty : St := ⟨[], [], [], []⟩

/-- Lookup `findUnique` on drivers. -/
def St.findDriver (s : St) (id : String) : Option Driver :=
  s.drivers.find? (fun d => d.id == id)

/-- Lookup `findUnique` on vehicles. -/
def St.findVehicle (s : St) (id : String) : Option Vehicle :=
  s.vehicles.find? (fun v => v.id == id)

/-- Lookup `findUnique` on contracts. -/
def St.findContract (s : St) (id : String) : Option Contract :=
  s.contracts.find? (fun c => c.id == id)

/-- The ACTIVE contracts of a driver
(`include: { contracts: { where: { status: ACTIVE } } }`). -/
def driverActiveContracts (s : St) (driverId : String) : List Contract :=
  s.contracts.filter
    (fun c => c.driverId == driverId && c.status == ContractStatus.ACTIVE)

/-- The ACTIVE contracts of a vehicle. -/
def vehicleActiveContracts (s : St) (vehicleId : String) : List Contract :=
  s.contracts.filter
    (fun c => c.vehicleId == vehicleId && c.status == ContractStatus.ACTIVE)

/-- Balance of a driver, when the driver row exists. -/
def balanceOf (s : St) (did : String) : Option ℚ :=
  (s.findDriver did).map Driver.balance

/-- Deposit (escrow) of a driver, when the driver row exists. -/
def depositOf (s : St) (did : String) : Option ℚ :=
  (s.findDriver did).map Driver.deposit

/-- Status of a vehicle, when the vehicle row exists. -/
def vehStatusIn (s : St) (vid : String) : Option VehicleStatus :=
  (s.findVehicle vid).map Vehicle.status

/-- Status of a contract, when the contract row exists. -/
def conStatusIn (s : St) (cid : String) : Option ContractStatus :=
  (s.findContract cid).map Contract.status

/-- The authenticated caller (`currentUser`), as the services see it. -/
structure CurrentUser where
  id : String
  role : UserRole
  companyId : Option String
  userType : String
  deriving DecidableEq

/-! ## ContractService.create -/

/-- The distinct error kinds thrown by `ContractService.create`,
one constructor per `throw` site, in source order. -/
inductive CreateErr
  | companyIdRequired
  | userHasNoCompany
  | driverNotFound
  | driverNotActive
  | driverWrongCompany
  | driverHasActiveContract
  | vehicleNotFound
  | vehicleWrongCompany
  | vehicleNotAvailable
  | vehicleHasActiveContract
  | startDateInPast
  | endDateNotAfterStart
  | insufficientDeposit
  deriving DecidableEq

/-- The `CreateContractDto` after validation: `deposit` is defaulted to `0`
and `status` stays optional (`status || ACTIVE` is applied in the
service).  The validator enforces `dailyRate ≥ 0.01` and `deposit ≥ 0`. -/
structure CreateContractDto where
  driverId : String
  vehicleId : String
  dailyRate : ℚ
  deposit : ℚ
  startDate : Nat
  endDate : Option Nat
  status : Option ContractStatus
  companyId : Option String
  deriving DecidableEq

/-- Company-scope resolution at the head of `create`: a super admin must
name a company in the dto, everyone else acts on their own company. -/
def resolveTargetCompany (dto : CreateContractDto) (u : CurrentUser) :
    Except CreateErr String :=
  if u.role = UserRole.SUPER_ADMIN then
    match dto.companyId with
    | none => .error .companyIdRequired
    | some cid => .ok cid
  else
    match u.companyId with
    | none => .error .userHasNoCompany
    | some cid => .ok cid

/-- The guard `end && end <= start` of the date validation. -/
def endNotAfterStart (endDate : Option Nat) (start : Nat) : Bool :=
  match endDate with
  | some e => decide (e ≤ start)
  | none => false

/-- The contract row inserted by the creation transaction
(`status: status || ACTIVE`, `deposit: deposit || 0`). -/
def newContract (dto : CreateContractDto) (targetCompanyId : String)
    (newId : String) : Contract :=
  { id := newId
    driverId := dto.driverId
    vehicleId := dto.vehicleId
    companyId := targetCompanyId
    dailyRate := dto.dailyRate
    deposit := dto.deposit
    startDate := dto.startDate
    endDate := dto.endDate
    status := dto.status.getD ContractStatus.ACTIVE }

/-- The DEPOSIT ledger entry written when a deposit is held. -/
def depositPayment (dto : CreateContractDto) (targetCompanyId : String)
    (u : CurrentUser) (now : Nat) (newId : String) : Payment :=
  { amount := dto.deposit
    ptype := PaymentType.DEPOSIT
    desc := PayDesc.depositHold newId
    date := now
    driverId := dto.driverId
    contractId := some newId
    companyId := targetCompanyId
    createdById := some u.id }

/-- The `tx.vehicle.update` write setting one vehicle's status. -/
def setVehStatus (vs : List Vehicle) (vid : String) (st : VehicleStatus) : List Vehicle :=
  vs.map (fun v => if v.id == vid then { v with status := st } else v)

/-- The `tx.driver.update` write adding `delta` to one driver's escrowed deposit. -/
def addDriverDeposit (ds : List Driver) (did : String) (delta : ℚ) : List Driver :=
  ds.map (fun d => if d.id == did then { d with deposit := d.deposit + delta } else d)

/-- The `$transaction` body of `create`: insert the contract, set the
vehicle RENTED and, when a deposit is requested (`deposit && deposit > 0`),
decrement the driver's escrow and append the DEPOSIT entry. -/
def applyCreateTx (s : St) (dto : CreateContractDto) (targetCompanyId : String)
    (u : CurrentUser) (now : Nat) (newId : String) : St :=
  let s1 : St := { s with contracts := s.contracts ++ [newContract dto targetCompanyId newId] }
  let s2 : St := { s1 with vehicles := setVehStatus s1.vehicles dto.vehicleId VehicleStatus.RENTED }
  if dto.deposit ≠ 0 ∧ 0 < dto.deposit then
    { s2 with
      drivers := addDriverDeposit s2.drivers dto.driverId (-dto.deposit),
      payments := s2.payments ++ [depositPayment dto targetCompanyId u now newId] }
  else s2

/-- Method `ContractService.create`: the precondition chain in source order,
then the atomic creation transaction. -/
def contractCreate (s : St) (dto : CreateContractDto) (u : CurrentUser)
    (now : Nat) (newId : String) : Except CreateErr (St × Contract) :=
  match resolveTargetCompany dto u with
  | .error e => .error e
  | .ok targetCompanyId =>
    match s.findDriver dto.driverId with
    | none => .error .driverNotFound
    | some driver =>
      if driver.isActive = false then .error .driverNotActive
      else if driver.companyId ≠ targetCompanyId then .error .driverWrongCompany
      else if (driverActiveContracts s dto.driverId).length > 0 then .error .driverHasActiveContract
      else
        match s.findVehicle dto.vehicleId with
        | none => .error .vehicleNotFound
        | some vehicle =>
          if vehicle.companyId ≠ targetCompanyId then .error .vehicleWrongCompany
          else if vehicle.status ≠ VehicleStatus.AVAILABLE then .error .vehicleNotAvailable
          else if (vehicleActiveContracts s dto.vehicleId).length > 0 then .error .vehicleHasActiveContract
          else if dto.startDate < now then .error .startDateInPast
          else if endNotAfterStart dto.endDate dto.startDate then .error .endDateNotAfterStart
          else if dto.deposit ≠ 0 ∧ driver.deposit < dto.deposit then .error .insufficientDeposit
          else .ok (applyCreateTx s dto targetCompanyId u now newId,
                    newContract dto targetCompanyId newId)

/-- The database state after a call to `create`: the transaction result
on success, the unchanged input state on a throw (every throw in the
source happens before the transaction, which is atomic). -/
def createPost (s : St) (dto : CreateContractDto) (u : CurrentUser)
    (now : Nat) (newId : String) : St :=
  match contractCreate s dto u now newId with
  | .ok (s', _) => s'
  | .error _ => s

/-! ## ContractService.updateStatus / update / remove -/

/-- Method `checkContractAccess`: super admins see everything, driver tokens
only their own contracts, staff only their company's contracts. -/
def checkContractAccess (c : Contract) (u : CurrentUser) : Bool :=
  if u.role == UserRole.SUPER_ADMIN then true
  else if u.userType == "driver" then c.driverId == u.id
  else some c.companyId == u.companyId

/-- Error kinds thrown by `ContractService.updateStatus`. -/
inductive StatusErr
  | notFound
  | forbidden
  | completedIsTerminal
  | terminatedIsTerminal
  deriving DecidableEq

/-- The `UpdateStatusDto`. -/
structure UpdateStatusDto where
  status : ContractStatus
  reason : Option String
  endDate : Option Nat
  deriving DecidableEq

/-- The `tx.contract.update` write applied in `updateStatus`: new status, and
`endDate: endDate ? new Date(endDate) : contract.endDate`. -/
def setContractStatus (cs : List Contract) (cid : String)
    (st : ContractStatus) (newEnd : Option Nat) : List Contract :=
  cs.map (fun c => if c.id == cid then { c with status := st, endDate := newEnd } else c)

/-- The REFUND ledger entry written when a finished contract's deposit
is returned. -/
def refundPayment (c : Contract) (u : CurrentUser) (now : Nat) : Payment :=
  { amount := c.deposit
    ptype := PaymentType.REFUND
    desc := PayDesc.depositRefund c.id
    date := now
    driverId := c.driverId
    contractId := some c.id
    companyId := c.companyId
    createdById := some u.id }

/-- The vehicle status written by `updateStatus`: RENTED on transition to
ACTIVE, AVAILABLE on COMPLETED/TERMINATED, the vehicle's current status
otherwise (SUSPENDED re-writes the joined vehicle's own status; the
foreign key guarantees the join is present, the `getD` default is never
read on states whose contracts reference existing vehicles). -/
def statusVehicleTarget (s : St) (c : Contract) (newStatus : ContractStatus) : VehicleStatus :=
  if newStatus = ContractStatus.ACTIVE then VehicleStatus.RENTED
  else if newStatus = ContractStatus.COMPLETED ∨ newStatus = ContractStatus.TERMINATED then
    VehicleStatus.AVAILABLE
  else ((s.findVehicle c.vehicleId).map Vehicle.status).getD VehicleStatus.AVAILABLE

/-- The `$transaction` body of `updateStatus`, given the pre-read
contract `c` (joined with its driver and vehicle). -/
def applyStatusTx (s : St) (c : Contract) (dto : UpdateStatusDto)
    (u : CurrentUser) (now : Nat) : St :=
  let newEnd : Option Nat := match dto.endDate with
    | some e => some e
    | none => c.endDate
  let s1 : St := { s with contracts := setContractStatus s.contracts c.id dto.status newEnd }
  let s2 : St := { s1 with vehicles := setVehStatus s1.vehicles c.vehicleId (statusVehicleTarget s c dto.status) }
  if (dto.status = ContractStatus.COMPLETED ∨ dto.status = ContractStatus.TERMINATED) ∧
      0 < c.deposit then
    { s2 with
      drivers := addDriverDeposit s2.drivers c.driverId c.deposit,
      payments := s2.payments ++ [refundPayment c u now] }
  else s2

/-- Method `ContractService.updateStatus`: terminal-status guard, then the
atomic transaction. -/
def contractUpdateStatus (s : St) (cid : String) (dto : UpdateStatusDto)
    (u : CurrentUser) (now : Nat) : Except StatusErr (St × Contract) :=
  match s.findContract cid with
  | none => .error .notFound
  | some c =>
    if checkContractAccess c u = false then .error .forbidden
    else if c.status = ContractStatus.COMPLETED then .error .completedIsTerminal
    else if c.status = ContractStatus.TERMINATED then .error .terminatedIsTerminal
    else
      .ok (applyStatusTx s c dto u now,
           { c with status := dto.status,
                    endDate := match dto.endDate with
                               | some e => some e
                               | none => c.endDate })

/-- The database state after a call to `updateStatus` (unchanged on a
throw: all throws precede the transaction). -/
def statusPost (s : St) (cid : String) (dto : UpdateStatusDto)
    (u : CurrentUser) (now : Nat) : St :=
  match contractUpdateStatus s cid dto u now with
  | .ok (s', _) => s'
  | .error _ => s

/-- Error kinds thrown by the generic `ContractService.update`. -/
inductive UpdateErr
  | notFound
  | forbidden
  | endDateNotAfterStart
  deriving DecidableEq

/-- The `UpdateContractDto`: `PartialType(CreateContractDto)` with
`driverId`/`vehicleId`/`companyId` excluded; `status` is an ordinary
optional field with no terminal-state guard. -/
structure UpdateContractDto where
  dailyRate : Option ℚ
  deposit : Option ℚ
  startDate : Option Nat
  endDate : Option Nat
  status : Option ContractStatus
  deriving DecidableEq

/-- Applying the partial update to one contract row (absent dto fields
are left untouched by `prisma.contract.update`). -/
def applyUpdateDto (c : Contract) (dto : UpdateContractDto) : Contract :=
  { c with
    dailyRate := dto.dailyRate.getD c.dailyRate,
    deposit := dto.deposit.getD c.deposit,
    startDate := dto.startDate.getD c.startDate,
    endDate := match dto.endDate with
               | some e => some e
               | none => c.endDate,
    status := dto.status.getD c.status }

/-- The row update performed by `prisma.contract.update` in `update`. -/
def updateContractRows (cs : List Contract) (cid : String)
    (dto : UpdateContractDto) : List Contract :=
  cs.map (fun c0 => if c0.id == cid then applyUpdateDto c0 dto else c0)

/-- Method `ContractService.update`: lookup, access check, end-date validation,
then a plain row update — note there is no terminal-status guard here. -/
def contractUpdate (s : St) (cid : String) (dto : UpdateContractDto)
    (u : CurrentUser) : Except UpdateErr (St × Contract) :=
  match s.findContract cid with
  | none => .error .notFound
  | some c =>
    if checkContractAccess c u = false then .error .forbidden
    else if (match dto.endDate with
             | some e => decide (e ≤ c.startDate)
             | none => false) then .error .endDateNotAfterStart
    else
      .ok ({ s with contracts := updateContractRows s.contracts cid dto },
           applyUpdateDto c dto)

/-- Error kinds thrown by `ContractService.remove`. -/
inductive RemoveErr
  | notFound
  | forbidden
  | activeContract
  | hasPayments
  deriving DecidableEq

/-- Method `ContractService.remove`: only non-ACTIVE contracts without payment
history may be deleted. -/
def contractRemove (s : St) (cid : String) (u : CurrentUser) :
    Except RemoveErr (St × Contract) :=
  match s.findContract cid with
  | none => .error .notFound
  | some c =>
    if checkContractAccess c u = false then .error .forbidden
    else if c.status = ContractStatus.ACTIVE then .error .activeContract
    else if (s.payments.filter (fun p => p.contractId == some cid)).length > 0 then
      .error .hasPayments
    else
      .ok ({ s with contracts := s.contracts.filter (fun c0 => !(c0.id == cid)) }, c)

/-! ## BillingService -/

/-- The fetch of `processAllActiveContracts`: contracts with status
ACTIVE whose `endDate` is null or `≥ now`. -/
def billingActiveContracts (s : St) (now : Nat) : List Contract :=
  s.contracts.filter (fun c =>
    c.status == ContractStatus.ACTIVE &&
    (match c.endDate with
     | none => true
     | some e => decide (now ≤ e)))

/-- The running stats object of the billing cycle. -/
structure BillingStats where
  total : Nat
  successful : Nat
  failed : Nat
  totalAmount : ℚ
  deriving DecidableEq

/-- The `billing.payment.failed` event payload. -/
structure PaymentFailedEvent where
  contractId : String
  driverId : String
  amount : ℚ
  reason : String
  deriving DecidableEq

/-- The `tx.driver.update` write decrementing one driver's balance. -/
def chargeDriver (ds : List Driver) (did : String) (amount : ℚ) : List Driver :=
  ds.map (fun d => if d.id == did then { d with balance := d.balance - amount } else d)

/-- The DAILY_RENT entry of a successful charge. -/
def rentPayment (c : Contract) (now : Nat) : Payment :=
  { amount := c.dailyRate
    ptype := PaymentType.DAILY_RENT
    desc := PayDesc.rent
    date := now
    driverId := c.driverId
    contractId := some c.id
    companyId := c.companyId
    createdById := none }

/-- The error-tagged DAILY_RENT entry written by
`createFailedPaymentRecord`. -/
def failedRentPayment (c : Contract) (msg : String) (now : Nat) : Payment :=
  { amount := c.dailyRate
    ptype := PaymentType.DAILY_RENT
    desc := PayDesc.rentError msg
    date := now
    driverId := c.driverId
    contractId := some c.id
    companyId := c.companyId
    createdById := none }

/-- The error message attached to a simulated storage failure.  The
source forwards `error.message`; its exact text is irrelevant to every
claim, so a fixed message stands for it. -/
def storageFailureMsg : String := "storage failure"

/-- Accumulated result of one billing cycle. -/
structure BillingRun where
  state : St
  stats : BillingStats
  events : List PaymentFailedEvent
  deriving DecidableEq

/-- One iteration of the `for` loop of `processAllActiveContracts`.
`fails c` says the per-contract charge transaction hits a technical
storage failure; the transaction is atomic, so a failed charge leaves
the balance untouched, and the catch block emits the failure event and
appends the error-tagged ledger entry (whose own write is modelled as
succeeding). -/
def processContract (fails : Contract → Bool) (now : Nat)
    (acc : BillingRun) (c : Contract) : BillingRun :=
  let acc1 : BillingRun := { acc with stats := { acc.stats with total := acc.stats.total + 1 } }
  if fails c then
    { acc1 with
      stats := { acc1.stats with failed := acc1.stats.failed + 1 },
      events := acc1.events ++ [⟨c.id, c.driverId, c.dailyRate, storageFailureMsg⟩],
      state := { acc1.state with
        payments := acc1.state.payments ++ [failedRentPayment c storageFailureMsg now] } }
  else
    { acc1 with
      stats := { acc1.stats with
        successful := acc1.stats.successful + 1,
        totalAmount := acc1.stats.totalAmount + c.dailyRate },
      state := { acc1.state with
        drivers := chargeDriver acc1.state.drivers c.driverId c.dailyRate,
        payments := acc1.state.payments ++ [rentPayment c now] } }

/-- Method `BillingService.processAllActiveContracts`: fetch the active
contracts and process each one in its own transaction, isolating
failures. -/
def processAllActiveContracts (s : St) (now : Nat) (fails : Contract → Bool) : BillingRun :=
  (billingActiveContracts s now).foldl (processContract fails now)
    ⟨s, ⟨0, 0, 0, 0⟩, []⟩

/-- The optional `companyId` restriction both monitoring queries accept
(`if (companyId) whereClause.companyId = companyId`). -/
def companyMatches (companyId : Option String) (cid : String) : Bool :=
  match companyId with
  | none => true
  | some c => cid == c

/-- The aggregate returned by `getTodayBillingStats`. -/
structure TodayStats where
  total : Nat
  successful : Nat
  failed : Nat
  totalAmount : ℚ
  deriving DecidableEq

/-- Method `BillingService.getTodayBillingStats`: today's DAILY_RENT entries
(optionally restricted to one company), partitioned by the error tag in
the description; `totalAmount` aggregates over ALL of them. -/
def getTodayBillingStats (s : St) (today : Nat) (companyId : Option String) : TodayStats :=
  let ps := s.payments.filter (fun p =>
    p.ptype == PaymentType.DAILY_RENT && p.date == today &&
    companyMatches companyId p.companyId)
  { total := ps.length
    successful := (ps.filter (fun p => !p.desc.hasErrTag)).length
    failed := (ps.filter (fun p => p.desc.hasErrTag)).length
    totalAmount := (ps.map Payment.amount).sum }

/-- One record of the debtor list. -/
structure DebtorRecord where
  driverId : String
  balance : ℚ
  debtAmount : ℚ
  dailyRate : ℚ
  daysInDebt : ℤ
  deriving DecidableEq

/-- The per-driver mapping step of `getDriversInDebt`: combined daily
rate over the driver's ACTIVE contracts, `debtAmount = |balance|` and
`daysInDebt = ceil(debtAmount / totalDailyRate)` (0 when the combined
rate is not positive). -/
def mkDebtor (s : St) (d : Driver) : DebtorRecord :=
  let totalDailyRate := ((driverActiveContracts s d.id).map Contract.dailyRate).sum
  let debtAmount := |d.balance|
  { driverId := d.id
    balance := d.balance
    debtAmount := debtAmount
    dailyRate := totalDailyRate
    daysInDebt := if 0 < totalDailyRate then ⌈debtAmount / totalDailyRate⌉ else 0 }

/-- Method `BillingService.getDriversInDebt`: drivers with negative balance, an
ACTIVE contract and `isActive: true` (optionally of one company), mapped
to debtor records and sorted ascending by balance. -/
def getDriversInDebt (s : St) (companyId : Option String) : List DebtorRecord :=
  let ds := s.drivers.filter (fun d =>
    decide (d.balance < 0) && !(driverActiveContracts s d.id).isEmpty && d.isActive &&
    companyMatches companyId d.companyId)
  (ds.map (mkDebtor s)).insertionSort (fun a b => a.balance ≤ b.balance)

/-! ## AnalyticsService.saveMetric -/

/-- Analytics cache row (`model Analytics`), uniquely indexed in the
database on `(companyId, metricType, date, entityId)` — with SQL NULL
semantics: two rows whose `entityId` is NULL never collide. -/
structure AnalyticsRow where
  companyId : String
  metricType : AnalyticsType
  date : Nat
  entityId : Option String
  value : ℚ
  deriving DecidableEq

/-- The match performed by the upsert's `where` clause: the compound
unique key is looked up with the string `entityId || ''`, so it only
matches rows whose stored `entityId` equals that string (never rows
whose `entityId` is NULL). -/
def upsertKeyMatches (r : AnalyticsRow) (companyId : String)
    (metricType : AnalyticsType) (date : Nat) (whereEntityId : String) : Bool :=
  r.companyId == companyId && r.metricType == metricType &&
    r.date == date && r.entityId == some whereEntityId

/-- Method `AnalyticsService.saveMetric`: `prisma.analytics.upsert` with
`where.entityId = entityId || ''` and `create.entityId = entityId`.
When the `where` lookup matches, the matched row's value is replaced;
otherwise a fresh row is inserted (for a NULL `entityId` the unique
index never blocks the insert). -/
def saveMetric (table : List AnalyticsRow) (companyId : String)
    (metricType : AnalyticsType) (date : Nat) (entityId : Option String)
    (value : ℚ) : List AnalyticsRow :=
  let w := entityId.getD ""
  if table.any (fun r => upsertKeyMatches r companyId metricType date w) then
    table.map (fun r =>
      if upsertKeyMatches r companyId metricType date w then { r with value := value } else r)
  else
    table ++ [{ companyId := companyId, metricType := metricType, date := date,
                entityId := entityId, value := value }]

/-! ## Reachable states

States reachable by the core operations named by the spec's invariants:
registering drivers and vehicles (plain inserts with fresh primary
keys), `create`, `updateStatus`, `remove` and billing runs. -/

inductive Reachable : St → Prop
  | init : Reachable St.empty
  | addDriver (s : St) (d : Driver) (hs : Reachable s)
      (hfresh : ∀ d0 ∈ s.drivers, d0.id ≠ d.id) :
      Reachable { s with drivers := s.drivers ++ [d] }
  | addVehicle (s : St) (v : Vehicle) (hs : Reachable s)
      (hfresh : ∀ v0 ∈ s.vehicles, v0.id ≠ v.id) :
      Reachable { s with vehicles := s.vehicles ++ [v] }
  | createStep (s s' : St) (dto : CreateContractDto) (u : CurrentUser)
      (now : Nat) (newId : String) (c : Contract) (hs : Reachable s)
      (hfresh : ∀ c0 ∈ s.contracts, c0.id ≠ newId)
      (h : contractCreate s dto u now newId = .ok (s', c)) : Reachable s'
  | statusStep (s s' : St) (cid : String) (dto : UpdateStatusDto)
      (u : CurrentUser) (now : Nat) (c : Contract) (hs : Reachable s)
      (h : contractUpdateStatus s cid dto u now = .ok (s', c)) : Reachable s'
  | removeStep (s s' : St) (cid : String) (u : CurrentUser) (c : Contract)
      (hs : Reachable s)
      (h : contractRemove s cid u = .ok (s', c)) : Reachable s'
  | billingStep (s : St) (now : Nat) (fails : Contract → Bool) (hs : Reachable s) :
      Reachable (processAllActiveContracts s now fails).state

/-- Number of ACTIVE contracts of one driver. -/
def activeCountD (s : St) (did : String) : Nat :=
  (driverActiveContracts s did).length

/-- Number of ACTIVE contracts on one vehicle. -/
def activeCountV (s : St) (vid : String) : Nat :=
  (vehicleActiveContracts s vid).length

/-! ## Theorems -/

/-- C9: recomputing the metric for the key
`(companyId = "co", metricType = REVENUE, date = 5, entityId = NULL)`
twice (values 10 then 20) leaves TWO rows for that key, not one: the
upsert's `where` clause looks the key up with `entityId || ''`, which
never matches the row stored with a NULL `entityId`, and the SQL unique
index does not block the second insert because NULLs never collide.  The
claimed idempotent-upsert behaviour fails for every NULL-`entityId`
(company-wide) metric. -/
theorem saveMetric_null_key_duplicates :
    saveMetric (saveMetric [] "co" AnalyticsType.REVENUE 5 none 10)
        "co" AnalyticsType.REVENUE 5 none 20 =
      [{ companyId := "co", metricType := AnalyticsType.REVENUE, date := 5,
         entityId := none, value := 10 },
       { companyId := "co", metricType := AnalyticsType.REVENUE, date := 5,
         entityId := none, value := 20 }] ∧
    (saveMetric (saveMetric [] "co" AnalyticsType.REVENUE 5 none 10)
        "co" AnalyticsType.REVENUE 5 none 20).length = 2 := by
  constructor
  · rfl
  · rfl

/-- Counterexample state for C8: an inactive driver (`isActive: false`)
with negative balance and an ACTIVE contract. -/
def cexDebtSt : St :=
  { drivers := [{ id := "d1", companyId := "co", balance := -5, deposit := 0, isActive := false }]
    vehicles := []
    contracts := [{ id := "k1", driverId := "d1", vehicleId := "v1", companyId := "co",
                    dailyRate := 10, deposit := 0, startDate := 0, endDate := none,
                    status := ContractStatus.ACTIVE }]
    payments := [] }

/-- C8 (counterexample): the query does NOT return every driver with
negative balance and an ACTIVE contract — it additionally filters on
`isActive: true`, so this indebted driver is omitted. -/
theorem debtors_query_counterexample :
    (∃ d ∈ cexDebtSt.drivers, d.balance < 0 ∧ driverActiveContracts cexDebtSt d.id ≠ []) ∧
    getDriversInDebt cexDebtSt none = [] := by
  refine ⟨⟨{ id := "d1", companyId := "co", balance := -5, deposit := 0, isActive := false },
          ?_, ?_, ?_⟩, ?_⟩
  · decide
  · decide
  · decide
  · decide

/-- Example state of C8's worked example: balance −450, two ACTIVE
contracts with daily rates 100 and 50. -/
def exDebtSt : St :=
  { drivers := [{ id := "d1", companyId := "co", balance := -450, deposit := 0, isActive := true }]
    vehicles := []
    contracts := [{ id := "k1", driverId := "d1", vehicleId := "v1", companyId := "co",
                    dailyRate := 100, deposit := 0, startDate := 0, endDate := none,
                    status := ContractStatus.ACTIVE },
                  { id := "k2", driverId := "d1", vehicleId := "v2", companyId := "co",
                    dailyRate := 50, deposit := 0, startDate := 0, endDate := none,
                    status := ContractStatus.ACTIVE }]
    payments := [] }

/-- C8 (amended): `getDriversInDebt` returns exactly the ACTIVE
(`isActive: true`) drivers with balance < 0 having at least one ACTIVE
contract, annotated with `debtAmount = |balance|`, the combined daily
rate of their ACTIVE contracts and
`daysInDebt = ceil(debtAmount / combined rate)` (0 when the combined
rate is not positive), sorted ascending by balance; the worked example
(balance −450, rates 100 and 50) yields `daysInDebt = 3`. -/
theorem debtors_query_amended :
    (∀ (s : St) (r : DebtorRecord), r ∈ getDriversInDebt s none ↔
      ∃ d ∈ s.drivers, d.balance < 0 ∧ d.isActive = true ∧
        driverActiveContracts s d.id ≠ [] ∧
        r.driverId = d.id ∧ r.balance = d.balance ∧ r.debtAmount = |d.balance| ∧
        r.dailyRate = ((driverActiveContracts s d.id).map Contract.dailyRate).sum ∧
        r.daysInDebt = (if 0 < r.dailyRate then ⌈r.debtAmount / r.dailyRate⌉ else 0)) ∧
    (∀ (s : St) (cid : Option String),
      (getDriversInDebt s cid).Sorted (fun a b => a.balance ≤ b.balance)) ∧
    getDriversInDebt exDebtSt none =
      [{ driverId := "d1", balance := -450, debtAmount := 450,
         dailyRate := 150, daysInDebt := 3 }] := by
  refine ⟨?_, ?_, ?_⟩
  · intro s r
    unfold getDriversInDebt
    rw [List.mem_insertionSort]
    simp only [List.mem_map, List.mem_filter, Bool.and_eq_true, decide_eq_true_eq,
      Bool.not_eq_true', List.isEmpty_eq_false, companyMatches, and_true, true_and]
    constructor
    · rintro ⟨d, ⟨hd, ⟨⟨hlt, hne⟩, hact⟩⟩, rfl⟩
      exact ⟨d, hd, hlt, hact, hne, rfl, rfl, rfl, rfl, rfl⟩
    · rintro ⟨d, hd, hlt, hact, hne, h1, h2, h3, h4, h5⟩
      refine ⟨d, ⟨hd, ⟨⟨hlt, hne⟩, hact⟩⟩, ?_⟩
      cases r
      simp only [mkDebtor] at h1 h2 h3 h4 h5 ⊢
      simp_all
  · intro s cid
    haveI : IsTotal DebtorRecord (fun a b => a.balance ≤ b.balance) :=
      ⟨fun a b => le_total a.balance b.balance⟩
    haveI : IsTrans DebtorRecord (fun a b => a.balance ≤ b.balance) :=
      ⟨fun _ _ _ hab hbc => le_trans hab hbc⟩
    exact List.sorted_insertionSort _ _
  · have h1 : getDriversInDebt exDebtSt none =
        [mkDebtor exDebtSt ⟨"d1", "co", -450, 0, true⟩] := rfl
    have h2 : ((driverActiveContracts exDebtSt "d1").map Contract.dailyRate).sum = 150 := by
      have hc : driverActiveContracts exDebtSt "d1" = exDebtSt.contracts := rfl
      rw [hc]
      show (100:ℚ) + (50 + 0) = 150
      norm_num
    rw [h1]
    simp only [mkDebtor, h2]
    norm_num

/-- The precondition list of `create` as the spec states it, rendered as
a first-failure function, amended in one point: inside step (1) the
implementation tests driver existence, then `isActive`, then company
membership (the spec's wording put membership before activity).  All
later steps follow the spec's numbering: (2) driver exclusivity,
(3) vehicle existence / membership / availability, (4) vehicle
exclusivity, (5) dates, (6) deposit coverage. -/
def specCreateFirstErr (s : St) (dto : CreateContractDto) (u : CurrentUser)
    (now : Nat) : Option CreateErr :=
  match resolveTargetCompany dto u with
  | .error e => some e
  | .ok tc =>
    match s.findDriver dto.driverId with
    | none => some .driverNotFound
    | some driver =>
      if driver.isActive = false then some .driverNotActive
      else if driver.companyId ≠ tc then some .driverWrongCompany
      else if (driverActiveContracts s dto.driverId).length > 0 then some .driverHasActiveContract
      else
        match s.findVehicle dto.vehicleId with
        | none => some .vehicleNotFound
        | some vehicle =>
          if vehicle.companyId ≠ tc then some .vehicleWrongCompany
          else if vehicle.status ≠ VehicleStatus.AVAILABLE then some .vehicleNotAvailable
          else if (vehicleActiveContracts s dto.vehicleId).length > 0 then some .vehicleHasActiveContract
          else if dto.startDate < now then some .startDateInPast
          else if endNotAfterStart dto.endDate dto.startDate then some .endDateNotAfterStart
          else if dto.deposit ≠ 0 ∧ driver.deposit < dto.deposit then some .insufficientDeposit
          else none

/-- Counterexample state for C4: the driver exists but is inactive AND
belongs to a different company than the caller's scope. -/
def cexOrderSt : St :=
  { drivers := [{ id := "d1", companyId := "other", balance := 0, deposit := 0, isActive := false }]
    vehicles := [{ id := "v1", companyId := "co", status := VehicleStatus.AVAILABLE }]
    contracts := []
    payments := [] }

/-- Caller for the C4 counterexample: a company admin scoped to "co". -/
def cexOrderUser : CurrentUser :=
  { id := "u1", role := UserRole.COMPANY_ADMIN, companyId := some "co", userType := "staff" }

/-- Dto for the C4 counterexample. -/
def cexOrderDto : CreateContractDto :=
  { driverId := "d1", vehicleId := "v1", dailyRate := 1, deposit := 0,
    startDate := 0, endDate := none, status := none, companyId := none }

/-- C4 (counterexample): an inactive driver of another company yields
the inactivity error, not the company-membership error the claim
predicts — the implementation checks `isActive` before membership. -/
theorem create_order_counterexample :
    (St.findDriver cexOrderSt "d1").map Driver.isActive = some false ∧
    (St.findDriver cexOrderSt "d1").map Driver.companyId = some "other" ∧
    resolveTargetCompany cexOrderDto cexOrderUser = .ok "co" ∧
    contractCreate cexOrderSt cexOrderDto cexOrderUser 0 "n1" =
      .error CreateErr.driverNotActive ∧
    CreateErr.driverNotActive ≠ CreateErr.driverWrongCompany := by
  refine ⟨rfl, rfl, rfl, rfl, by decide⟩

/-- The error raised by a call, `none` on success. -/
def errOf {ε α : Type} : Except ε α → Option ε
  | .error e => some e
  | .ok _ => none

set_option maxHeartbeats 1600000 in
/-- C4 (amended): `create` checks its preconditions in the spec's listed
order, failing fast with the distinct error kind of the first violated
precondition — except that within step (1) the order is driver
existence, then activity, then company membership (so an inactive driver
of another company yields the inactivity error): the error raised (none
on success) is exactly the first failure of the amended ordered
precondition list. -/
theorem create_precondition_order (s : St) (dto : CreateContractDto)
    (u : CurrentUser) (now : Nat) (newId : String) :
    errOf (contractCreate s dto u now newId) = specCreateFirstErr s dto u now := by
  unfold contractCreate specCreateFirstErr
  rcases hR : resolveTargetCompany dto u with e | tc <;> simp only [hR]
  · rfl
  · rcases hD : s.findDriver dto.driverId with - | driver <;> simp only [hD]
    · rfl
    · split_ifs <;> try rfl
      all_goals
        rcases hV : s.findVehicle dto.vehicleId with - | vehicle <;>
          simp only [hV] <;>
          first
            | rfl
            | (split_ifs <;> rfl)

/-! ## Billing-run lemmas -/

/-- The one ledger entry produced for a processed contract: the
error-tagged record when the charge transaction fails, the ordinary
rent record otherwise. -/
def billEntry (fails : Contract → Bool) (now : Nat) (c : Contract) : Payment :=
  if fails c then failedRentPayment c storageFailureMsg now else rentPayment c now

/-- Folding the per-contract charge over a contract list. -/
def chargeAll (ds : List Driver) (cs : List Contract) : List Driver :=
  cs.foldl (fun acc c => chargeDriver acc c.driverId c.dailyRate) ds

/-- Balance of a driver in a plain driver list. -/
def findBalance (ds : List Driver) (did : String) : Option ℚ :=
  (ds.find? (fun d => d.id == did)).map Driver.balance

theorem findBalance_chargeDriver (ds : List Driver) (d0 did : String) (amt : ℚ) :
    findBalance (chargeDriver ds d0 amt) did =
      (findBalance ds did).map (fun b => if did = d0 then b - amt else b) := by
  unfold findBalance chargeDriver
  rw [List.find?_map]
  have hcomp : ((fun d : Driver => d.id == did) ∘
      (fun d : Driver => if d.id == d0 then { d with balance := d.balance - amt } else d)) =
      (fun d : Driver => d.id == did) := by
    funext d
    by_cases h : (d.id == d0) = true <;> simp [Function.comp, h]
  rw [hcomp]
  cases hfind : ds.find? (fun d => d.id == did) with
  | none => rfl
  | some d =>
    have hdid : d.id = did := by
      have := List.find?_some hfind
      simpa using this
    by_cases h0 : d.id = d0
    · have hb : (d.id == d0) = true := by simp [h0]
      simp [hb, ← hdid, h0]
    · have hb : (d.id == d0) = false := by simp [h0]
      simp [hb, ← hdid, h0]

theorem findBalance_chargeAll (cs : List Contract) (ds : List Driver) (did : String) :
    findBalance (chargeAll ds cs) did =
      (findBalance ds did).map (fun b =>
        b - ((cs.filter (fun c => c.driverId == did)).map Contract.dailyRate).sum) := by
  induction cs generalizing ds with
  | nil =>
    cases h : findBalance ds did <;> simp [chargeAll, h]
  | cons c cs ih =>
    have hstep : chargeAll ds (c :: cs) = chargeAll (chargeDriver ds c.driverId c.dailyRate) cs := rfl
    rw [hstep, ih, findBalance_chargeDriver]
    cases hb : findBalance ds did with
    | none => rfl
    | some b =>
      by_cases hc : c.driverId = did
      · have h1 : ((c.driverId == did) : Bool) = true := by simp [hc]
        simp [List.filter_cons, h1, hc.symm]
        try ring
      · have h1 : ((c.driverId == did) : Bool) = false := by simp [hc]
        have h2 : did ≠ c.driverId := fun h0 => hc h0.symm
        simp [List.filter_cons, h1, h2]

/-- Unfolding one step of the billing fold. -/
theorem chargeAll_cons (ds : List Driver) (c : Contract) (cs : List Contract) :
    chargeAll ds (c :: cs) = chargeAll (chargeDriver ds c.driverId c.dailyRate) cs := rfl

theorem billFold_drivers (fails : Contract → Bool) (now : Nat)
    (cs : List Contract) (acc : BillingRun) :
    (cs.foldl (processContract fails now) acc).state.drivers
      = chargeAll acc.state.drivers (cs.filter (fun c => !fails c)) := by
  induction cs generalizing acc with
  | nil => rfl
  | cons c cs ih =>
    rw [List.foldl_cons, ih]
    by_cases hf : fails c = true <;>
      simp [processContract, hf, List.filter_cons, chargeAll_cons]

theorem billFold_payments (fails : Contract → Bool) (now : Nat)
    (cs : List Contract) (acc : BillingRun) :
    (cs.foldl (processContract fails now) acc).state.payments
      = acc.state.payments ++ cs.map (billEntry fails now) := by
  induction cs generalizing acc with
  | nil => simp
  | cons c cs ih =>
    rw [List.foldl_cons, ih]
    by_cases hf : fails c = true <;>
      simp [processContract, hf, billEntry]

theorem billFold_vehicles (fails : Contract → Bool) (now : Nat)
    (cs : List Contract) (acc : BillingRun) :
    (cs.foldl (processContract fails now) acc).state.vehicles = acc.state.vehicles := by
  induction cs generalizing acc with
  | nil => rfl
  | cons c cs ih =>
    rw [List.foldl_cons, ih]
    by_cases hf : fails c = true <;> simp [processContract, hf]

theorem billFold_contracts (fails : Contract → Bool) (now : Nat)
    (cs : List Contract) (acc : BillingRun) :
    (cs.foldl (processContract fails now) acc).state.contracts = acc.state.contracts := by
  induction cs generalizing acc with
  | nil => rfl
  | cons c cs ih =>
    rw [List.foldl_cons, ih]
    by_cases hf : fails c = true <;> simp [processContract, hf]

theorem billFold_total (fails : Contract → Bool) (now : Nat)
    (cs : List Contract) (acc : BillingRun) :
    (cs.foldl (processContract fails now) acc).stats.total = acc.stats.total + cs.length := by
  induction cs generalizing acc with
  | nil => rfl
  | cons c cs ih =>
    rw [List.foldl_cons, ih]
    by_cases hf : fails c = true <;> simp [processContract, hf] <;> omega

theorem billFold_failed (fails : Contract → Bool) (now : Nat)
    (cs : List Contract) (acc : BillingRun) :
    (cs.foldl (processContract fails now) acc).stats.failed
      = acc.stats.failed + (cs.filter (fun c => fails c)).length := by
  induction cs generalizing acc with
  | nil => rfl
  | cons c cs ih =>
    rw [List.foldl_cons, ih]
    by_cases hf : fails c = true <;>
      simp [processContract, hf, List.filter_cons] <;> omega

theorem billFold_successful (fails : Contract → Bool) (now : Nat)
    (cs : List Contract) (acc : BillingRun) :
    (cs.foldl (processContract fails now) acc).stats.successful
      = acc.stats.successful + (cs.filter (fun c => !fails c)).length := by
  induction cs generalizing acc with
  | nil => rfl
  | cons c cs ih =>
    rw [List.foldl_cons, ih]
    by_cases hf : fails c = true <;>
      simp [processContract, hf, List.filter_cons] <;> omega

theorem billFold_totalAmount (fails : Contract → Bool) (now : Nat)
    (cs : List Contract) (acc : BillingRun) :
    (cs.foldl (processContract fails now) acc).stats.totalAmount
      = acc.stats.totalAmount + ((cs.filter (fun c => !fails c)).map Contract.dailyRate).sum := by
  induction cs generalizing acc with
  | nil => simp
  | cons c cs ih =>
    rw [List.foldl_cons, ih]
    by_cases hf : fails c = true <;>
      simp [processContract, hf, List.filter_cons] <;> ring

theorem billFold_events (fails : Contract → Bool) (now : Nat)
    (cs : List Contract) (acc : BillingRun) :
    (cs.foldl (processContract fails now) acc).events
      = acc.events ++ (cs.filter (fun c => fails c)).map
          (fun c => ⟨c.id, c.driverId, c.dailyRate, storageFailureMsg⟩) := by
  induction cs generalizing acc with
  | nil => simp
  | cons c cs ih =>
    rw [List.foldl_cons, ih]
    by_cases hf : fails c = true <;>
      simp [processContract, hf, List.filter_cons]

theorem length_filter_partition {α : Type} (p : α → Bool) (l : List α) :
    (l.filter p).length + (l.filter (fun a => !p a)).length = l.length := by
  induction l with
  | nil => rfl
  | cons a l ih =>
    by_cases h : p a = true <;> simp [List.filter_cons, h] <;> omega

theorem sum_filter_partition {α : Type} (f : α → ℚ) (p : α → Bool) (l : List α) :
    (((l.filter p).map f).sum + ((l.filter (fun a => !p a)).map f).sum) = (l.map f).sum := by
  induction l with
  | nil => simp
  | cons a l ih =>
    by_cases h : p a = true <;> simp [List.filter_cons, h, ← ih] <;> ring

/-- Stats `total` of one full billing run. -/
theorem processAll_total (s : St) (now : Nat) (fails : Contract → Bool) :
    (processAllActiveContracts s now fails).stats.total
      = (billingActiveContracts s now).length := by
  rw [processAllActiveContracts, billFold_total]
  simp

/-- Stats `successful` of one full billing run. -/
theorem processAll_successful (s : St) (now : Nat) (fails : Contract → Bool) :
    (processAllActiveContracts s now fails).stats.successful
      = ((billingActiveContracts s now).filter (fun c => !fails c)).length := by
  rw [processAllActiveContracts, billFold_successful]
  simp

/-- Stats `failed` of one full billing run. -/
theorem processAll_failed (s : St) (now : Nat) (fails : Contract → Bool) :
    (processAllActiveContracts s now fails).stats.failed
      = ((billingActiveContracts s now).filter (fun c => fails c)).length := by
  rw [processAllActiveContracts, billFold_failed]
  simp

/-- Stats `totalAmount` of one full billing run: only successfully
charged contracts are summed. -/
theorem processAll_totalAmount (s : St) (now : Nat) (fails : Contract → Bool) :
    (processAllActiveContracts s now fails).stats.totalAmount
      = (((billingActiveContracts s now).filter (fun c => !fails c)).map
          Contract.dailyRate).sum := by
  rw [processAllActiveContracts, billFold_totalAmount]
  simp

/-- The ledger after one full billing run. -/
theorem processAll_payments (s : St) (now : Nat) (fails : Contract → Bool) :
    (processAllActiveContracts s now fails).state.payments
      = s.payments ++ (billingActiveContracts s now).map (billEntry fails now) := by
  rw [processAllActiveContracts, billFold_payments]

/-- The failure events emitted by one full billing run. -/
theorem processAll_events (s : St) (now : Nat) (fails : Contract → Bool) :
    (processAllActiveContracts s now fails).events
      = ((billingActiveContracts s now).filter (fun c => fails c)).map
          (fun c => ⟨c.id, c.driverId, c.dailyRate, storageFailureMsg⟩) := by
  rw [processAllActiveContracts, billFold_events]
  simp

/-- The drivers table after one full billing run. -/
theorem processAll_drivers (s : St) (now : Nat) (fails : Contract → Bool) :
    (processAllActiveContracts s now fails).state.drivers
      = chargeAll s.drivers ((billingActiveContracts s now).filter (fun c => !fails c)) := by
  rw [processAllActiveContracts, billFold_drivers]

/-- One billed contract yields one DAILY_RENT-typed entry. -/
theorem billEntry_ptype (fails : Contract → Bool) (now : Nat) (c : Contract) :
    (billEntry fails now c).ptype = PaymentType.DAILY_RENT := by
  by_cases hf : fails c = true <;> simp [billEntry, hf, failedRentPayment, rentPayment]

/-- A billed contract's entry carries the error tag iff its charge
failed. -/
theorem billEntry_errTag (fails : Contract → Bool) (now : Nat) :
    ((fun p : Payment => p.desc.hasErrTag) ∘ billEntry fails now) = (fun c => fails c) := by
  funext c
  by_cases hf : fails c = true <;>
    simp [billEntry, hf, failedRentPayment, rentPayment, PayDesc.hasErrTag, Function.comp]

/-- A billed contract's entry amount is its daily rate, also when the
charge failed. -/
theorem billEntry_amount (fails : Contract → Bool) (now : Nat) :
    (Payment.amount ∘ billEntry fails now) = Contract.dailyRate := by
  funext c
  by_cases hf : fails c = true <;>
    simp [billEntry, hf, failedRentPayment, rentPayment, Function.comp]

/-- C1: one billing run over the `N` contracts fetched as active appends
exactly `N` new ledger entries, all typed DAILY_RENT (one per contract,
successful and failed alike), and each driver's balance decreases by
exactly the sum of the daily rates of that driver's successfully billed
contracts — in particular it is untouched by every failed charge. -/
theorem billing_run_entries_and_balances (s : St) (now : Nat) (fails : Contract → Bool) :
    (processAllActiveContracts s now fails).state.payments.length
        = s.payments.length + (billingActiveContracts s now).length ∧
    (∀ p ∈ (processAllActiveContracts s now fails).state.payments.drop s.payments.length,
        p.ptype = PaymentType.DAILY_RENT) ∧
    (∀ did : String,
        findBalance (processAllActiveContracts s now fails).state.drivers did
          = (findBalance s.drivers did).map (fun b =>
              b - ((((billingActiveContracts s now).filter (fun c => !fails c)).filter
                      (fun c => c.driverId == did)).map Contract.dailyRate).sum)) := by
  refine ⟨?_, ?_, ?_⟩
  · rw [processAll_payments]
    simp
  · intro p hp
    rw [processAll_payments, List.drop_left] at hp
    obtain ⟨c, -, rfl⟩ := List.mem_map.mp hp
    exact billEntry_ptype fails now c
  · intro did
    rw [processAll_drivers, findBalance_chargeAll]

/-- C2: a billing run over 3 active contracts of which exactly one hits
a storage failure reports stats total 3 / successful 2 / failed 1,
appends exactly one error-tagged ledger entry — the one of the failing
contract — and emits exactly one `PaymentFailedEvent`, for that
contract; the failure neither aborts nor rolls back the other charges. -/
theorem billing_three_one_failure (s : St) (now : Nat) (fails : Contract → Bool)
    (h3 : (billingActiveContracts s now).length = 3)
    (h1 : ((billingActiveContracts s now).filter (fun c => fails c)).length = 1) :
    (processAllActiveContracts s now fails).stats.total = 3 ∧
    (processAllActiveContracts s now fails).stats.successful = 2 ∧
    (processAllActiveContracts s now fails).stats.failed = 1 ∧
    (∃ cf, (billingActiveContracts s now).filter (fun c => fails c) = [cf] ∧
      ((processAllActiveContracts s now fails).state.payments.drop s.payments.length).filter
          (fun p => p.desc.hasErrTag)
        = [failedRentPayment cf storageFailureMsg now] ∧
      (processAllActiveContracts s now fails).events
        = [⟨cf.id, cf.driverId, cf.dailyRate, storageFailureMsg⟩]) := by
  have hpart := length_filter_partition (fun c => fails c) (billingActiveContracts s now)
  obtain ⟨cf, hcf⟩ := List.length_eq_one.mp h1
  have hcfMem : cf ∈ (billingActiveContracts s now).filter (fun c => fails c) := by
    rw [hcf]
    exact List.mem_singleton_self cf
  have hcfFails : fails cf = true := (List.mem_filter.mp hcfMem).2
  refine ⟨?_, ?_, ?_, cf, hcf, ?_, ?_⟩
  · rw [processAll_total, h3]
  · rw [processAll_successful]
    omega
  · rw [processAll_failed, h1]
  · rw [processAll_payments, List.drop_left, List.filter_map, billEntry_errTag, hcf]
    simp [billEntry, hcfFails]
  · rw [processAll_events, hcf]
    rfl

/-- Witness scenario for C2: three active contracts, the charge of the
second one fails. -/
def wBillSt : St :=
  { drivers := [{ id := "d1", companyId := "co", balance := 0, deposit := 0, isActive := true },
                { id := "d2", companyId := "co", balance := 0, deposit := 0, isActive := true },
                { id := "d3", companyId := "co", balance := 0, deposit := 0, isActive := true }]
    vehicles := []
    contracts := [{ id := "k1", driverId := "d1", vehicleId := "v1", companyId := "co",
                    dailyRate := 100, deposit := 0, startDate := 0, endDate := none,
                    status := ContractStatus.ACTIVE },
                  { id := "k2", driverId := "d2", vehicleId := "v2", companyId := "co",
                    dailyRate := 80, deposit := 0, startDate := 0, endDate := none,
                    status := ContractStatus.ACTIVE },
                  { id := "k3", driverId := "d3", vehicleId := "v3", companyId := "co",
                    dailyRate := 60, deposit := 0, startDate := 0, endDate := none,
                    status := ContractStatus.ACTIVE }]
    payments := [] }

/-- The simulated storage failure of the C2/C10 witness scenario: the
charge of contract "k2" fails. -/
def wFails : Contract → Bool := fun c => c.id == "k2"

theorem billing_three_one_failure_witness :
    (processAllActiveContracts wBillSt 7 wFails).stats.total = 3 ∧
    (processAllActiveContracts wBillSt 7 wFails).stats.successful = 2 ∧
    (processAllActiveContracts wBillSt 7 wFails).stats.failed = 1 := by
  obtain ⟨ht, hs, hf, -⟩ :=
    billing_three_one_failure wBillSt 7 wFails (by decide) (by decide)
  exact ⟨ht, hs, hf⟩

/-- C10: when no DAILY_RENT entry dated `now` precedes the run, the
`totalAmount` of `getTodayBillingStats` sums ALL of today's DAILY_RENT
entries — error-tagged ones included — while the successful/failed
counts partition those same entries by the error tag; so with every
fetched rate positive (the dto validator enforces `dailyRate ≥ 0.01`)
and at least one failed charge, the query's `totalAmount` strictly
exceeds the run's returned `totalAmount`, which sums only the
successfully charged contracts. -/
theorem today_stats_includes_failed (s : St) (now : Nat) (fails : Contract → Bool)
    (h0 : s.payments.filter (fun p =>
        p.ptype == PaymentType.DAILY_RENT && p.date == now &&
          companyMatches none p.companyId) = [])
    (hpos : ∀ c ∈ billingActiveContracts s now, 0 < c.dailyRate)
    (hfail : ∃ c ∈ billingActiveContracts s now, fails c = true) :
    (getTodayBillingStats (processAllActiveContracts s now fails).state now none).total
        = (billingActiveContracts s now).length ∧
    (getTodayBillingStats (processAllActiveContracts s now fails).state now none).successful
        = (processAllActiveContracts s now fails).stats.successful ∧
    (getTodayBillingStats (processAllActiveContracts s now fails).state now none).failed
        = (processAllActiveContracts s now fails).stats.failed ∧
    (getTodayBillingStats (processAllActiveContracts s now fails).state now none).totalAmount
        = (processAllActiveContracts s now fails).stats.totalAmount
          + (((billingActiveContracts s now).filter (fun c => fails c)).map
              Contract.dailyRate).sum ∧
    (processAllActiveContracts s now fails).stats.totalAmount
        < (getTodayBillingStats (processAllActiveContracts s now fails).state now none).totalAmount := by
  have hfiltered :
      (processAllActiveContracts s now fails).state.payments.filter (fun p =>
          p.ptype == PaymentType.DAILY_RENT && p.date == now &&
            companyMatches none p.companyId)
        = (billingActiveContracts s now).map (billEntry fails now) := by
    rw [processAll_payments, List.filter_append, h0, List.nil_append]
    apply List.filter_eq_self.mpr
    intro p hp
    obtain ⟨c, -, rfl⟩ := List.mem_map.mp hp
    by_cases hf : fails c = true <;>
      simp [billEntry, hf, failedRentPayment, rentPayment, companyMatches]
  have hQ : getTodayBillingStats (processAllActiveContracts s now fails).state now none
      = { total := ((billingActiveContracts s now).map (billEntry fails now)).length
          successful := (((billingActiveContracts s now).map (billEntry fails now)).filter
              (fun p => !p.desc.hasErrTag)).length
          failed := (((billingActiveContracts s now).map (billEntry fails now)).filter
              (fun p => p.desc.hasErrTag)).length
          totalAmount := (((billingActiveContracts s now).map (billEntry fails now)).map
              Payment.amount).sum } := by
    rw [getTodayBillingStats, hfiltered]
  have hcongOk : ((fun p : Payment => !p.desc.hasErrTag) ∘ billEntry fails now)
      = (fun c => !fails c) := by
    funext c
    have := congrFun (billEntry_errTag fails now) c
    simp only [Function.comp] at this ⊢
    rw [this]
  have hsumAll : (((billingActiveContracts s now).map (billEntry fails now)).map
      Payment.amount).sum = ((billingActiveContracts s now).map Contract.dailyRate).sum := by
    rw [List.map_map, billEntry_amount]
  have hQAmt : (getTodayBillingStats (processAllActiveContracts s now fails).state now none).totalAmount
      = ((billingActiveContracts s now).map Contract.dailyRate).sum := by
    rw [hQ]
    exact hsumAll
  have hps : (((billingActiveContracts s now).filter (fun c => fails c)).map
        Contract.dailyRate).sum
      + (((billingActiveContracts s now).filter (fun c => !fails c)).map
        Contract.dailyRate).sum
      = ((billingActiveContracts s now).map Contract.dailyRate).sum := by
    simpa using sum_filter_partition Contract.dailyRate (fun c => fails c)
      (billingActiveContracts s now)
  have hAmtEq : (getTodayBillingStats (processAllActiveContracts s now fails).state now none).totalAmount
      = (processAllActiveContracts s now fails).stats.totalAmount
        + (((billingActiveContracts s now).filter (fun c => fails c)).map
            Contract.dailyRate).sum := by
    rw [hQAmt, processAll_totalAmount, ← hps]
    ring
  have hposSum : 0 < (((billingActiveContracts s now).filter (fun c => fails c)).map
      Contract.dailyRate).sum := by
    apply List.sum_pos
    · intro x hx
      obtain ⟨c, hc, rfl⟩ := List.mem_map.mp hx
      exact hpos c (List.mem_of_mem_filter hc)
    · obtain ⟨c, hc, hcfails⟩ := hfail
      intro hnil
      rw [List.map_eq_nil_iff] at hnil
      exact List.ne_nil_of_mem (List.mem_filter.mpr ⟨hc, hcfails⟩) hnil
  refine ⟨?_, ?_, ?_, hAmtEq, ?_⟩
  · rw [hQ]
    simp
  · rw [hQ, processAll_successful]
    show (((billingActiveContracts s now).map (billEntry fails now)).filter
        (fun p => !p.desc.hasErrTag)).length = _
    rw [List.filter_map, hcongOk, List.length_map]
  · rw [hQ, processAll_failed]
    show (((billingActiveContracts s now).map (billEntry fails now)).filter
        (fun p => p.desc.hasErrTag)).length = _
    rw [List.filter_map, billEntry_errTag, List.length_map]
  · rw [hAmtEq]
    exact lt_add_of_pos_right _ hposSum

theorem billing_run_entries_witness :
    (processAllActiveContracts wBillSt 7 wFails).state.payments.length
      = wBillSt.payments.length + (billingActiveContracts wBillSt 7).length ∧
    findBalance (processAllActiveContracts wBillSt 7 wFails).state.drivers "d2"
      = (findBalance wBillSt.drivers "d2").map (fun b =>
          b - ((((billingActiveContracts wBillSt 7).filter (fun c => !wFails c)).filter
                  (fun c => c.driverId == "d2")).map Contract.dailyRate).sum) := by
  obtain ⟨h1, -, h3⟩ := billing_run_entries_and_balances wBillSt 7 wFails
  exact ⟨h1, h3 "d2"⟩

theorem today_stats_includes_failed_witness :
    (processAllActiveContracts wBillSt 7 wFails).stats.totalAmount
      < (getTodayBillingStats (processAllActiveContracts wBillSt 7 wFails).state 7 none).totalAmount := by
  exact (today_stats_includes_failed wBillSt 7 wFails rfl (by decide) (by decide)).2.2.2.2

/-! ## Contract creation atomicity (C3) -/

theorem findVeh_setVehStatus (vs : List Vehicle) (vid : String) (st : VehicleStatus) :
    ((setVehStatus vs vid st).find? (fun v => v.id == vid)).map Vehicle.status
      = (vs.find? (fun v => v.id == vid)).map (fun _ => st) := by
  unfold setVehStatus
  rw [List.find?_map]
  have hcomp : ((fun v : Vehicle => v.id == vid) ∘
      (fun v : Vehicle => if v.id == vid then { v with status := st } else v)) =
      (fun v : Vehicle => v.id == vid) := by
    funext v
    by_cases h : (v.id == vid) = true <;> simp [Function.comp, h]
  rw [hcomp]
  cases hf : vs.find? (fun v => v.id == vid) with
  | none => rfl
  | some v =>
    have hb : v.id = vid := by simpa using List.find?_some hf
    simp [hb]

theorem findDep_addDriverDeposit (ds : List Driver) (did : String) (delta : ℚ) :
    ((addDriverDeposit ds did delta).find? (fun d => d.id == did)).map Driver.deposit
      = (ds.find? (fun d => d.id == did)).map (fun d => d.deposit + delta) := by
  unfold addDriverDeposit
  rw [List.find?_map]
  have hcomp : ((fun d : Driver => d.id == did) ∘
      (fun d : Driver => if d.id == did then { d with deposit := d.deposit + delta } else d)) =
      (fun d : Driver => d.id == did) := by
    funext d
    by_cases h : (d.id == did) = true <;> simp [Function.comp, h]
  rw [hcomp]
  cases hf : ds.find? (fun d => d.id == did) with
  | none => rfl
  | some d =>
    have hb : d.id = did := by simpa using List.find?_some hf
    simp [hb]

theorem applyCreateTx_contracts (s : St) (dto : CreateContractDto) (tc : String)
    (u : CurrentUser) (now : Nat) (newId : String) :
    (applyCreateTx s dto tc u now newId).contracts = s.contracts ++ [newContract dto tc newId] := by
  by_cases h : dto.deposit ≠ 0 ∧ 0 < dto.deposit <;> simp [applyCreateTx, h]

theorem applyCreateTx_vehicles (s : St) (dto : CreateContractDto) (tc : String)
    (u : CurrentUser) (now : Nat) (newId : String) :
    (applyCreateTx s dto tc u now newId).vehicles
      = setVehStatus s.vehicles dto.vehicleId VehicleStatus.RENTED := by
  by_cases h : dto.deposit ≠ 0 ∧ 0 < dto.deposit <;> simp [applyCreateTx, h]

/-- C3: contract creation is all-or-nothing.  A call that raises leaves
the database exactly as it was — no contract row, vehicle-status change,
driver-deposit change or payment row; a successful call inserts exactly
the new ACTIVE-by-default contract, sets the vehicle RENTED, decrements
the driver's escrowed deposit by the held amount, and appends exactly
one DEPOSIT-typed ledger entry of that amount when the deposit is
positive (and none when it is zero). -/
theorem contract_create_atomic (s : St) (dto : CreateContractDto) (u : CurrentUser)
    (now : Nat) (newId : String) :
    (∀ e, contractCreate s dto u now newId = .error e →
        createPost s dto u now newId = s) ∧
    (∀ s' c, contractCreate s dto u now newId = .ok (s', c) →
        s'.contracts = s.contracts ++ [c] ∧
        c.status = dto.status.getD ContractStatus.ACTIVE ∧
        c.dailyRate = dto.dailyRate ∧
        c.deposit = dto.deposit ∧
        vehStatusIn s' dto.vehicleId
          = (vehStatusIn s dto.vehicleId).map (fun _ => VehicleStatus.RENTED) ∧
        (0 ≤ dto.deposit →
          depositOf s' dto.driverId
            = (depositOf s dto.driverId).map (fun q => q - dto.deposit)) ∧
        (0 < dto.deposit →
          s'.payments = s.payments ++ [depositPayment dto c.companyId u now newId]) ∧
        (dto.deposit = 0 → s'.payments = s.payments)) := by
  constructor
  · intro e he
    simp [createPost, he]
  · intro s' c h
    rw [contractCreate] at h
    rcases hR : resolveTargetCompany dto u with e | tc <;> simp only [hR] at h
    · exact Except.noConfusion h
    rcases hD : s.findDriver dto.driverId with - | driver <;> simp only [hD] at h
    · exact Except.noConfusion h
    split_ifs at h <;> try exact Except.noConfusion h
    all_goals
      rcases hV : s.findVehicle dto.vehicleId with - | vehicle <;> simp only [hV] at h <;>
        try exact Except.noConfusion h
    all_goals (split_ifs at h <;> try exact Except.noConfusion h)
    obtain ⟨hs', hc⟩ : applyCreateTx s dto tc u now newId = s' ∧ newContract dto tc newId = c := by
      injection h with h1
      injection h1 with h2 h3
      exact ⟨h2, h3⟩
    subst hs'
    subst hc
    refine ⟨?_, rfl, rfl, rfl, ?_, ?_, ?_, ?_⟩
    · exact applyCreateTx_contracts s dto tc u now newId
    · show ((applyCreateTx s dto tc u now newId).vehicles.find?
          (fun v => v.id == dto.vehicleId)).map Vehicle.status = _
      rw [applyCreateTx_vehicles, findVeh_setVehStatus]
      unfold vehStatusIn St.findVehicle
      cases s.vehicles.find? (fun v => v.id == dto.vehicleId) <;> rfl
    · intro hnn
      by_cases hdep : dto.deposit ≠ 0 ∧ 0 < dto.deposit
      · show ((applyCreateTx s dto tc u now newId).drivers.find?
            (fun d => d.id == dto.driverId)).map Driver.deposit = _
        have hdrv : (applyCreateTx s dto tc u now newId).drivers
            = addDriverDeposit s.drivers dto.driverId (-dto.deposit) := by
          simp [applyCreateTx, hdep]
        rw [hdrv, findDep_addDriverDeposit]
        unfold depositOf St.findDriver
        cases s.drivers.find? (fun d => d.id == dto.driverId) <;> simp [sub_eq_add_neg]
      · have hz : dto.deposit = 0 := by
          by_cases h0 : dto.deposit = 0
          · exact h0
          · exact absurd ⟨h0, lt_of_le_of_ne hnn (fun hx => h0 hx.symm)⟩ hdep
        show ((applyCreateTx s dto tc u now newId).drivers.find?
            (fun d => d.id == dto.driverId)).map Driver.deposit = _
        have hdrv : (applyCreateTx s dto tc u now newId).drivers = s.drivers := by
          simp [applyCreateTx, hdep]
        rw [hdrv, hz]
        unfold depositOf St.findDriver
        cases s.drivers.find? (fun d => d.id == dto.driverId) <;> simp
    · intro hpos
      have hdep : dto.deposit ≠ 0 ∧ 0 < dto.deposit := ⟨ne_of_gt hpos, hpos⟩
      show (applyCreateTx s dto tc u now newId).payments = _
      simp [applyCreateTx, hdep, newContract]
    · intro hz
      have hdep : ¬(dto.deposit ≠ 0 ∧ 0 < dto.deposit) := by
        intro hx
        exact hx.1 hz
      show (applyCreateTx s dto tc u now newId).payments = _
      simp [applyCreateTx, hdep]

/-- Witness state of C3's worked example: driver escrow 300, available
vehicle, empty ledger. -/
def exCreateSt : St :=
  { drivers := [{ id := "d1", companyId := "co", balance := 0, deposit := 300, isActive := true }]
    vehicles := [{ id := "v1", companyId := "co", status := VehicleStatus.AVAILABLE }]
    contracts := []
    payments := [] }

/-- Dto of C3's worked example: dailyRate 150, deposit 200. -/
def exCreateDto : CreateContractDto :=
  { driverId := "d1", vehicleId := "v1", dailyRate := 150, deposit := 200,
    startDate := 10, endDate := none, status := none, companyId := none }

/-- Caller of C3's worked example. -/
def exCreateUser : CurrentUser :=
  { id := "u1", role := UserRole.COMPANY_ADMIN, companyId := some "co", userType := "staff" }

theorem contract_create_atomic_witness :
    depositOf (createPost exCreateSt exCreateDto exCreateUser 10 "c1") "d1" = some 100 ∧
    vehStatusIn (createPost exCreateSt exCreateDto exCreateUser 10 "c1") "v1"
      = some VehicleStatus.RENTED ∧
    (createPost exCreateSt exCreateDto exCreateUser 10 "c1").payments
      = [depositPayment exCreateDto "co" exCreateUser 10 "c1"] := by
  have h : contractCreate exCreateSt exCreateDto exCreateUser 10 "c1"
      = .ok (createPost exCreateSt exCreateDto exCreateUser 10 "c1",
             newContract exCreateDto "co" "c1") := rfl
  obtain ⟨-, -, -, -, hveh, hdep, hpay, -⟩ :=
    (contract_create_atomic exCreateSt exCreateDto exCreateUser 10 "c1").2 _ _ h
  refine ⟨?_, ?_, ?_⟩
  · show depositOf (createPost exCreateSt exCreateDto exCreateUser 10 "c1")
        exCreateDto.driverId = some 100
    rw [hdep (by decide)]
    have h300 : depositOf exCreateSt exCreateDto.driverId = some 300 := rfl
    rw [h300]
    show some ((300 : ℚ) - 200) = some 100
    norm_num
  · show vehStatusIn (createPost exCreateSt exCreateDto exCreateUser 10 "c1")
        exCreateDto.vehicleId = some VehicleStatus.RENTED
    rw [hveh]
    rfl
  · rw [hpay (by decide)]
    rfl

/-! ## Contract status transition (C5, C6) -/

/-- C5: a successful `updateStatus` to COMPLETED or TERMINATED sets the
contract's vehicle AVAILABLE and, exactly when the contract's held
deposit is positive, returns that amount to the driver's escrow and
appends exactly one REFUND-typed ledger entry of that amount; with a
zero deposit the driver's escrow and the ledger are untouched. -/
theorem transition_finish_refunds (s : St) (cid : String) (dto : UpdateStatusDto)
    (u : CurrentUser) (now : Nat) (s' : St) (c0 c : Contract)
    (hc : s.findContract cid = some c)
    (hok : contractUpdateStatus s cid dto u now = .ok (s', c0))
    (hterm : dto.status = ContractStatus.COMPLETED ∨ dto.status = ContractStatus.TERMINATED) :
    vehStatusIn s' c.vehicleId
      = (vehStatusIn s c.vehicleId).map (fun _ => VehicleStatus.AVAILABLE) ∧
    (0 < c.deposit →
      depositOf s' c.driverId = (depositOf s c.driverId).map (fun q => q + c.deposit) ∧
      s'.payments = s.payments ++ [refundPayment c u now] ∧
      (refundPayment c u now).ptype = PaymentType.REFUND ∧
      (refundPayment c u now).amount = c.deposit) ∧
    (¬0 < c.deposit →
      depositOf s' c.driverId = depositOf s c.driverId ∧
      s'.payments = s.payments) := by
  rw [contractUpdateStatus] at hok
  simp only [hc] at hok
  split_ifs at hok <;> try exact Except.noConfusion hok
  have hs' : applyStatusTx s c dto u now = s' := by
    injection hok with h1
    exact congrArg Prod.fst h1
  subst hs'
  have htarget : statusVehicleTarget s c dto.status = VehicleStatus.AVAILABLE := by
    rcases hterm with h | h <;> simp [statusVehicleTarget, h]
  have hveh : (applyStatusTx s c dto u now).vehicles
      = setVehStatus s.vehicles c.vehicleId VehicleStatus.AVAILABLE := by
    by_cases hdep : (dto.status = ContractStatus.COMPLETED ∨
        dto.status = ContractStatus.TERMINATED) ∧ 0 < c.deposit <;>
      simp [applyStatusTx, hdep, htarget]
  refine ⟨?_, ?_, ?_⟩
  · show ((applyStatusTx s c dto u now).vehicles.find?
        (fun v => v.id == c.vehicleId)).map Vehicle.status = _
    rw [hveh, findVeh_setVehStatus]
    unfold vehStatusIn St.findVehicle
    cases s.vehicles.find? (fun v => v.id == c.vehicleId) <;> rfl
  · intro hd
    have hcond : (dto.status = ContractStatus.COMPLETED ∨
        dto.status = ContractStatus.TERMINATED) ∧ 0 < c.deposit := ⟨hterm, hd⟩
    have hdrv : (applyStatusTx s c dto u now).drivers
        = addDriverDeposit s.drivers c.driverId c.deposit := by
      simp [applyStatusTx, hcond]
    have hpay : (applyStatusTx s c dto u now).payments
        = s.payments ++ [refundPayment c u now] := by
      simp [applyStatusTx, hcond]
    refine ⟨?_, hpay, rfl, rfl⟩
    show ((applyStatusTx s c dto u now).drivers.find?
        (fun d => d.id == c.driverId)).map Driver.deposit = _
    rw [hdrv, findDep_addDriverDeposit]
    unfold depositOf St.findDriver
    cases s.drivers.find? (fun d => d.id == c.driverId) <;> simp
  · intro hd
    have hcond : ¬((dto.status = ContractStatus.COMPLETED ∨
        dto.status = ContractStatus.TERMINATED) ∧ 0 < c.deposit) := fun hx => hd hx.2
    have hdrv : (applyStatusTx s c dto u now).drivers = s.drivers := by
      simp [applyStatusTx, hcond]
    have hpay : (applyStatusTx s c dto u now).payments = s.payments := by
      simp [applyStatusTx, hcond]
    refine ⟨?_, hpay⟩
    show ((applyStatusTx s c dto u now).drivers.find?
        (fun d => d.id == c.driverId)).map Driver.deposit = _
    rw [hdrv]
    rfl

/-- Witness state of C5: one ACTIVE contract with deposit 200, driver
escrow 100, vehicle RENTED. -/
def exFinishSt : St :=
  { drivers := [{ id := "d1", companyId := "co", balance := 0, deposit := 100, isActive := true }]
    vehicles := [{ id := "v1", companyId := "co", status := VehicleStatus.RENTED }]
    contracts := [{ id := "k1", driverId := "d1", vehicleId := "v1", companyId := "co",
                    dailyRate := 150, deposit := 200, startDate := 0, endDate := none,
                    status := ContractStatus.ACTIVE }]
    payments := [] }

/-- Completion dto of the C5 witness. -/
def exFinishDto : UpdateStatusDto :=
  { status := ContractStatus.COMPLETED, reason := none, endDate := some 9 }

/-- The contract row of the C5 witness state. -/
def exFinishCon : Contract :=
  { id := "k1", driverId := "d1", vehicleId := "v1", companyId := "co",
    dailyRate := 150, deposit := 200, startDate := 0, endDate := none,
    status := ContractStatus.ACTIVE }

theorem transition_finish_refunds_witness :
    vehStatusIn (statusPost exFinishSt "k1" exFinishDto exCreateUser 9) "v1"
      = some VehicleStatus.AVAILABLE ∧
    depositOf (statusPost exFinishSt "k1" exFinishDto exCreateUser 9) "d1" = some 300 ∧
    (statusPost exFinishSt "k1" exFinishDto exCreateUser 9).payments
      = [refundPayment exFinishCon exCreateUser 9] := by
  have h : contractUpdateStatus exFinishSt "k1" exFinishDto exCreateUser 9
      = .ok (statusPost exFinishSt "k1" exFinishDto exCreateUser 9,
             { exFinishCon with status := ContractStatus.COMPLETED, endDate := some 9 }) := rfl
  obtain ⟨hveh, hdep, -⟩ :=
    transition_finish_refunds exFinishSt "k1" exFinishDto exCreateUser 9 _ _ exFinishCon
      rfl h (Or.inl rfl)
  obtain ⟨hdep2, hpay2, -, -⟩ := hdep (by decide)
  refine ⟨?_, ?_, ?_⟩
  · show vehStatusIn (statusPost exFinishSt "k1" exFinishDto exCreateUser 9)
        exFinishCon.vehicleId = some VehicleStatus.AVAILABLE
    rw [hveh]
    rfl
  · show depositOf (statusPost exFinishSt "k1" exFinishDto exCreateUser 9)
        exFinishCon.driverId = some 300
    rw [hdep2]
    have h100 : depositOf exFinishSt exFinishCon.driverId = some 100 := rfl
    rw [h100]
    show some ((100 : ℚ) + 200) = some 300
    norm_num
  · rw [hpay2]
    rfl

/-- Counterexample state for C6: a COMPLETED (terminal) contract. -/
def cexTermSt : St :=
  { drivers := []
    vehicles := []
    contracts := [{ id := "k1", driverId := "d1", vehicleId := "v1", companyId := "co",
                    dailyRate := 10, deposit := 0, startDate := 0, endDate := some 5,
                    status := ContractStatus.COMPLETED }]
    payments := [] }

/-- Super-admin caller used in the C6 counterexample. -/
def cexTermUser : CurrentUser :=
  { id := "root", role := UserRole.SUPER_ADMIN, companyId := none, userType := "staff" }

/-- C6 (counterexample): COMPLETED is not terminal for every operation —
the generic `update` has no terminal-status guard, so it happily moves a
COMPLETED contract back to ACTIVE. -/
theorem terminal_update_counterexample :
    conStatusIn cexTermSt "k1" = some ContractStatus.COMPLETED ∧
    (∃ s' c', contractUpdate cexTermSt "k1"
        { dailyRate := none, deposit := none, startDate := none, endDate := none,
          status := some ContractStatus.ACTIVE } cexTermUser = .ok (s', c') ∧
      conStatusIn s' "k1" = some ContractStatus.ACTIVE) := by
  exact ⟨rfl, _, _, rfl, rfl⟩

/-- C6 (amended): COMPLETED and TERMINATED are terminal for the
status-transition operation: `updateStatus` on a contract in either
state is rejected with the corresponding error and leaves the database
unchanged (and the billing run and `remove` never change a status); the
generic `update` operation, however, lacks the guard and can move a
terminal contract back to ACTIVE. -/
theorem terminal_status_guard (s : St) (cid : String) (dto : UpdateStatusDto)
    (u : CurrentUser) (now : Nat) (c : Contract)
    (hc : s.findContract cid = some c)
    (hacc : checkContractAccess c u = true) :
    (c.status = ContractStatus.COMPLETED →
      contractUpdateStatus s cid dto u now = .error StatusErr.completedIsTerminal ∧
      statusPost s cid dto u now = s) ∧
    (c.status = ContractStatus.TERMINATED →
      contractUpdateStatus s cid dto u now = .error StatusErr.terminatedIsTerminal ∧
      statusPost s cid dto u now = s) := by
  constructor
  · intro hst
    have herr : contractUpdateStatus s cid dto u now = .error StatusErr.completedIsTerminal := by
      rw [contractUpdateStatus]
      simp [hc, hacc, hst]
    exact ⟨herr, by simp [statusPost, herr]⟩
  · intro hst
    have herr : contractUpdateStatus s cid dto u now = .error StatusErr.terminatedIsTerminal := by
      rw [contractUpdateStatus]
      simp [hc, hacc, hst]
    exact ⟨herr, by simp [statusPost, herr]⟩

/-! ## Reachability invariant (C7) -/

/-- A contract occupying its vehicle: status ACTIVE or SUSPENDED (a
SUSPENDED contract keeps its vehicle RENTED by design). -/
def Contract.isLive (c : Contract) : Bool :=
  c.status == ContractStatus.ACTIVE || c.status == ContractStatus.SUSPENDED

/-- Number of ACTIVE-or-SUSPENDED contracts on one vehicle id. -/
def liveCount (s : St) (vid : String) : Nat :=
  (s.contracts.filter (fun c => c.vehicleId == vid && c.isLive)).length

/-- The inductive invariant of the core operations: primary keys are
unique, contracts reference existing vehicles, each vehicle id carries
at most one live (ACTIVE/SUSPENDED) contract, and a vehicle holding a
live contract is RENTED. -/
structure Inv (s : St) : Prop where
  vehNodup : (s.vehicles.map Vehicle.id).Nodup
  conNodup : (s.contracts.map Contract.id).Nodup
  fkVeh : ∀ c ∈ s.contracts, ∃ v ∈ s.vehicles, v.id = c.vehicleId
  liveLe : ∀ vid, liveCount s vid ≤ 1
  liveRented : ∀ c ∈ s.contracts, c.isLive = true →
    ∀ v ∈ s.vehicles, v.id = c.vehicleId → v.status = VehicleStatus.RENTED

theorem Inv.of_eq (s s' : St) (hv : s'.vehicles = s.vehicles)
    (hc : s'.contracts = s.contracts) (h : Inv s) : Inv s' := by
  constructor
  · rw [hv]
    exact h.vehNodup
  · rw [hc]
    exact h.conNodup
  · intro c hcm
    rw [hc] at hcm
    rw [hv]
    exact h.fkVeh c hcm
  · intro vid
    show (s'.contracts.filter _).length ≤ 1
    rw [hc]
    exact h.liveLe vid
  · intro c hcm hlive v hv0 hveq
    rw [hc] at hcm
    rw [hv] at hv0
    exact h.liveRented c hcm hlive v hv0 hveq

theorem Inv.of_sublist (s s' : St) (hv : s'.vehicles = s.vehicles)
    (hc : s'.contracts.Sublist s.contracts) (h : Inv s) : Inv s' := by
  constructor
  · rw [hv]
    exact h.vehNodup
  · exact h.conNodup.sublist (hc.map Contract.id)
  · intro c hcm
    rw [hv]
    exact h.fkVeh c (hc.mem hcm)
  · intro vid
    exact le_trans ((hc.filter _).length_le) (h.liveLe vid)
  · intro c hcm hlive v hv0 hveq
    rw [hv] at hv0
    exact h.liveRented c (hc.mem hcm) hlive v hv0 hveq

/-- The billing run leaves the contract table untouched. -/
theorem processAll_contracts (s : St) (now : Nat) (fails : Contract → Bool) :
    (processAllActiveContracts s now fails).state.contracts = s.contracts := by
  rw [processAllActiveContracts, billFold_contracts]

/-- The billing run leaves the vehicle table untouched. -/
theorem processAll_vehicles (s : St) (now : Nat) (fails : Contract → Bool) :
    (processAllActiveContracts s now fails).state.vehicles = s.vehicles := by
  rw [processAllActiveContracts, billFold_vehicles]

theorem setVehStatus_ids (vs : List Vehicle) (vid : String) (st : VehicleStatus) :
    (setVehStatus vs vid st).map Vehicle.id = vs.map Vehicle.id := by
  unfold setVehStatus
  rw [List.map_map]
  apply List.map_congr_left
  intro v hv
  by_cases h : (v.id == vid) = true <;> simp [Function.comp, h]

theorem setContractStatus_ids (cs : List Contract) (cid : String)
    (st : ContractStatus) (e : Option Nat) :
    (setContractStatus cs cid st e).map Contract.id = cs.map Contract.id := by
  unfold setContractStatus
  rw [List.map_map]
  apply List.map_congr_left
  intro c hc
  by_cases h : (c.id == cid) = true <;> simp [Function.comp, h]

theorem two_mem_le_length {α : Type} {a b : α} {m : List α}
    (ha : a ∈ m) (hb : b ∈ m) (hab : a ≠ b) : 2 ≤ m.length := by
  match m with
  | [] => exact absurd ha (List.not_mem_nil a)
  | [x] =>
    simp only [List.mem_singleton] at ha hb
    exact absurd (ha.trans hb.symm) hab
  | x :: y :: t => simp [List.length_cons]

theorem row_eq_of_id {l : List Contract} (hnd : (l.map Contract.id).Nodup)
    {a b : Contract} (ha : a ∈ l) (hb : b ∈ l) (hid : a.id = b.id) : a = b :=
  List.inj_on_of_nodup_map hnd ha hb hid

/-- What a successful `create` tells us: the vehicle was found AVAILABLE
with no ACTIVE contract, and the new state is the creation transaction
applied for the resolved company scope. -/
theorem contractCreate_ok_inv {s s' : St} {dto : CreateContractDto} {u : CurrentUser}
    {now : Nat} {newId : String} {c : Contract}
    (h : contractCreate s dto u now newId = .ok (s', c)) :
    ∃ tc vehicle, s.findVehicle dto.vehicleId = some vehicle ∧
      vehicle.status = VehicleStatus.AVAILABLE ∧
      (vehicleActiveContracts s dto.vehicleId).length = 0 ∧
      c = newContract dto tc newId ∧
      s' = applyCreateTx s dto tc u now newId := by
  rw [contractCreate] at h
  rcases hR : resolveTargetCompany dto u with e | tc <;> simp only [hR] at h
  · exact Except.noConfusion h
  rcases hD : s.findDriver dto.driverId with - | driver <;> simp only [hD] at h
  · exact Except.noConfusion h
  split_ifs at h <;> try exact Except.noConfusion h
  all_goals
    rcases hV : s.findVehicle dto.vehicleId with - | vehicle <;> simp only [hV] at h <;>
      try exact Except.noConfusion h
  all_goals (split_ifs at h <;> try exact Except.noConfusion h)
  refine ⟨tc, vehicle, rfl, ?_, ?_, ?_, ?_⟩
  · exact not_ne_iff.mp ‹¬vehicle.status ≠ VehicleStatus.AVAILABLE›
  · omega
  · injection h with h1
    exact (congrArg Prod.snd h1).symm
  · injection h with h1
    exact (congrArg Prod.fst h1).symm

theorem Inv_create (s s' : St) (dto : CreateContractDto) (u : CurrentUser)
    (now : Nat) (newId : String) (c : Contract)
    (hfresh : ∀ c0 ∈ s.contracts, c0.id ≠ newId)
    (h : contractCreate s dto u now newId = .ok (s', c))
    (hInv : Inv s) : Inv s' := by
  obtain ⟨tc, vehicle, hV, hAvail, hLen0, hcEq, hs'⟩ := contractCreate_ok_inv h
  subst hs'
  have hvehMem : vehicle ∈ s.vehicles := List.mem_of_find?_eq_some hV
  have hvehId : vehicle.id = dto.vehicleId := by simpa using List.find?_some hV
  have hnolive : ∀ c0 ∈ s.contracts,
      (c0.vehicleId == dto.vehicleId && c0.isLive) = false := by
    intro c0 hc0
    by_contra hbad
    rw [Bool.not_eq_false, Bool.and_eq_true, beq_iff_eq] at hbad
    obtain ⟨hvid, hlive⟩ := hbad
    have hr := hInv.liveRented c0 hc0 hlive vehicle hvehMem (by rw [hvehId, hvid])
    rw [hAvail] at hr
    exact VehicleStatus.noConfusion hr
  have hCon : (applyCreateTx s dto tc u now newId).contracts
      = s.contracts ++ [newContract dto tc newId] := applyCreateTx_contracts s dto tc u now newId
  have hVeh : (applyCreateTx s dto tc u now newId).vehicles
      = setVehStatus s.vehicles dto.vehicleId VehicleStatus.RENTED :=
    applyCreateTx_vehicles s dto tc u now newId
  have hmemLift : ∀ x ∈ s.vehicles,
      ∃ v' ∈ setVehStatus s.vehicles dto.vehicleId VehicleStatus.RENTED, v'.id = x.id := by
    intro x hx
    refine ⟨if x.id == dto.vehicleId then { x with status := VehicleStatus.RENTED } else x,
      List.mem_map_of_mem _ hx, ?_⟩
    by_cases hb : (x.id == dto.vehicleId) = true <;> simp [hb]
  constructor
  · rw [hVeh, setVehStatus_ids]
    exact hInv.vehNodup
  · rw [hCon, List.map_append, List.nodup_append]
    refine ⟨hInv.conNodup, List.nodup_singleton _, ?_⟩
    intro a ha hb
    simp only [List.map_cons, List.map_nil, List.mem_singleton] at hb
    obtain ⟨c0, hc0, hc0id⟩ := List.mem_map.mp ha
    exact hfresh c0 hc0 (by rw [hc0id, hb]; rfl)
  · intro c0 hc0
    rw [hCon] at hc0
    rw [hVeh]
    rcases List.mem_append.mp hc0 with hold | hnew
    · obtain ⟨v1, hv1, hv1id⟩ := hInv.fkVeh c0 hold
      obtain ⟨v', hv', hv'id⟩ := hmemLift v1 hv1
      exact ⟨v', hv', by rw [hv'id, hv1id]⟩
    · rw [List.mem_singleton.mp hnew]
      obtain ⟨v', hv', hv'id⟩ := hmemLift vehicle hvehMem
      exact ⟨v', hv', by rw [hv'id, hvehId]; rfl⟩
  · intro vid
    show (((applyCreateTx s dto tc u now newId).contracts.filter
        (fun c0 => c0.vehicleId == vid && c0.isLive)).length ≤ 1)
    rw [hCon, List.filter_append, List.length_append]
    by_cases hq : ((newContract dto tc newId).vehicleId == vid
        && (newContract dto tc newId).isLive) = true
    · have hvid : dto.vehicleId = vid := by
        have := hq
        rw [Bool.and_eq_true, beq_iff_eq] at this
        exact this.1
      subst hvid
      have hold0 : (s.contracts.filter
          (fun c0 => c0.vehicleId == dto.vehicleId && c0.isLive)).length = 0 := by
        rw [List.length_eq_zero, List.filter_eq_nil_iff]
        intro c0 hc0
        simp [hnolive c0 hc0]
      rw [hold0]
      simp [List.filter_cons, hq]
    · have hnew0 : ([newContract dto tc newId].filter
          (fun c0 => c0.vehicleId == vid && c0.isLive)).length = 0 := by
        simp [List.filter_cons, hq]
      rw [hnew0]
      have hle : (s.contracts.filter
          (fun c0 => c0.vehicleId == vid && c0.isLive)).length ≤ 1 := hInv.liveLe vid
      omega
  · intro c0 hc0 hlive v hv hveq
    rw [hCon] at hc0
    rw [hVeh] at hv
    obtain ⟨v0, hv0, hv0eq⟩ := List.mem_map.mp hv
    rcases List.mem_append.mp hc0 with hold | hnew
    · by_cases hb : (v0.id == dto.vehicleId) = true
      · rw [← hv0eq]
        simp [hb]
      · have hveq0 : v = v0 := by
          rw [← hv0eq]
          simp [hb]
        subst hveq0
        exact hInv.liveRented c0 hold hlive v hv0 hveq
    · have hc0new : c0 = newContract dto tc newId := List.mem_singleton.mp hnew
      have hvidnew : c0.vehicleId = dto.vehicleId := by rw [hc0new]; rfl
      have hb : (v0.id == dto.vehicleId) = true := by
        have hvid0 : v0.id = v.id := by
          rw [← hv0eq]
          by_cases hb0 : (v0.id == dto.vehicleId) = true <;> simp [hb0]
        rw [beq_iff_eq, hvid0, hveq, hvidnew]
      rw [← hv0eq]
      simp [hb]

/-- Any member of the vehicle table survives a status write, with its id
unchanged. -/
theorem setVehStatus_mem_lift (vs : List Vehicle) (vid : String) (st : VehicleStatus) :
    ∀ x ∈ vs, ∃ v' ∈ setVehStatus vs vid st, v'.id = x.id := by
  intro x hx
  refine ⟨if x.id == vid then { x with status := st } else x,
    List.mem_map_of_mem _ hx, ?_⟩
  by_cases hb : (x.id == vid) = true <;> simp [hb]

theorem vehRow_eq_of_id {l : List Vehicle} (hnd : (l.map Vehicle.id).Nodup)
    {a b : Vehicle} (ha : a ∈ l) (hb : b ∈ l) (hid : a.id = b.id) : a = b :=
  List.inj_on_of_nodup_map hnd ha hb hid

/-- What a successful `updateStatus` tells us: a non-terminal contract
was found and the new state is the transition transaction applied. -/
theorem contractUpdateStatus_ok_inv {s s' : St} {cid : String} {dto : UpdateStatusDto}
    {u : CurrentUser} {now : Nat} {c0 : Contract}
    (h : contractUpdateStatus s cid dto u now = .ok (s', c0)) :
    ∃ c, s.findContract cid = some c ∧
      c.status ≠ ContractStatus.COMPLETED ∧
      c.status ≠ ContractStatus.TERMINATED ∧
      s' = applyStatusTx s c dto u now := by
  rw [contractUpdateStatus] at h
  rcases hc : s.findContract cid with - | c <;> simp only [hc] at h
  · exact Except.noConfusion h
  split_ifs at h <;> try exact Except.noConfusion h
  refine ⟨c, rfl, ‹¬c.status = ContractStatus.COMPLETED›,
    ‹¬c.status = ContractStatus.TERMINATED›, ?_⟩
  injection h with h1
  exact (congrArg Prod.fst h1).symm

theorem Inv_status (s s' : St) (cid : String) (dto : UpdateStatusDto)
    (u : CurrentUser) (now : Nat) (c0 : Contract)
    (h : contractUpdateStatus s cid dto u now = .ok (s', c0))
    (hInv : Inv s) : Inv s' := by
  obtain ⟨c, hcFind, hnc, hnt, hs'⟩ := contractUpdateStatus_ok_inv h
  subst hs'
  have hcMem : c ∈ s.contracts := List.mem_of_find?_eq_some hcFind
  have hcLive : c.isLive = true := by
    cases hst : c.status with
    | ACTIVE => simp [Contract.isLive, hst]
    | SUSPENDED => simp [Contract.isLive, hst]
    | COMPLETED => exact absurd hst hnc
    | TERMINATED => exact absurd hst hnt
  obtain ⟨E, hCon⟩ : ∃ E, (applyStatusTx s c dto u now).contracts
      = setContractStatus s.contracts c.id dto.status E := by
    refine ⟨match dto.endDate with | some e => some e | none => c.endDate, ?_⟩
    by_cases hcond : (dto.status = ContractStatus.COMPLETED ∨
        dto.status = ContractStatus.TERMINATED) ∧ 0 < c.deposit <;>
      simp [applyStatusTx, hcond]
  have hVeh : (applyStatusTx s c dto u now).vehicles
      = setVehStatus s.vehicles c.vehicleId (statusVehicleTarget s c dto.status) := by
    by_cases hcond : (dto.status = ContractStatus.COMPLETED ∨
        dto.status = ContractStatus.TERMINATED) ∧ 0 < c.deposit <;>
      simp [applyStatusTx, hcond]
  obtain ⟨vc, hvcMem, hvcId⟩ := hInv.fkVeh c hcMem
  have hvcRented : vc.status = VehicleStatus.RENTED :=
    hInv.liveRented c hcMem hcLive vc hvcMem hvcId
  have hfindVc : s.findVehicle c.vehicleId = some vc := by
    cases hf : s.findVehicle c.vehicleId with
    | none =>
      exfalso
      have hsome : (s.vehicles.find? (fun v => v.id == c.vehicleId)).isSome = true :=
        List.find?_isSome.mpr ⟨vc, hvcMem, by simp [hvcId]⟩
      have hnone : s.vehicles.find? (fun v => v.id == c.vehicleId) = none := hf
      rw [hnone] at hsome
      exact Bool.noConfusion hsome
    | some v1 =>
      have hv1Mem : v1 ∈ s.vehicles := List.mem_of_find?_eq_some hf
      have hv1Id : v1.id = c.vehicleId := by simpa using List.find?_some hf
      exact congrArg some (vehRow_eq_of_id hInv.vehNodup hv1Mem hvcMem (by rw [hv1Id, hvcId]))
  have hTgt : (dto.status = ContractStatus.ACTIVE ∨ dto.status = ContractStatus.SUSPENDED) →
      statusVehicleTarget s c dto.status = VehicleStatus.RENTED := by
    rintro (hst | hst)
    · simp [statusVehicleTarget, hst]
    · simp [statusVehicleTarget, hst, hfindVc, hvcRented]
  have hgVid : ∀ cc : Contract,
      (if cc.id == c.id then { cc with status := dto.status, endDate := E } else cc).vehicleId
        = cc.vehicleId := by
    intro cc
    by_cases hb : (cc.id == c.id) = true <;> simp [hb]
  constructor
  · rw [hVeh, setVehStatus_ids]
    exact hInv.vehNodup
  · rw [hCon, setContractStatus_ids]
    exact hInv.conNodup
  · intro c' hc'
    rw [hCon] at hc'
    obtain ⟨cc, hcc, hccEq⟩ := List.mem_map.mp hc'
    obtain ⟨v1, hv1, hv1id⟩ := hInv.fkVeh cc hcc
    rw [hVeh]
    obtain ⟨v', hv', hv'id⟩ := setVehStatus_mem_lift _ _ _ v1 hv1
    refine ⟨v', hv', ?_⟩
    rw [hv'id, hv1id, ← hccEq, hgVid cc]
  · intro vid
    show (((applyStatusTx s c dto u now).contracts.filter
        (fun cc => cc.vehicleId == vid && cc.isLive)).length ≤ 1)
    rw [hCon]
    show ((List.map _ s.contracts).filter _).length ≤ 1
    rw [List.filter_map, List.length_map]
    have hbase : (s.contracts.filter (fun cc => cc.vehicleId == vid && cc.isLive)).length ≤ 1 :=
      hInv.liveLe vid
    by_cases hlv : dto.status = ContractStatus.ACTIVE ∨ dto.status = ContractStatus.SUSPENDED
    · have hcong : ∀ cc ∈ s.contracts,
          ((fun cc => cc.vehicleId == vid && cc.isLive) ∘
            (fun cc => if cc.id == c.id then { cc with status := dto.status, endDate := E } else cc)) cc
            = (fun cc => cc.vehicleId == vid && cc.isLive) cc := by
        intro cc hcc
        by_cases hb : (cc.id == c.id) = true
        · have hcceq : cc = c := row_eq_of_id hInv.conNodup hcc hcMem (by simpa using hb)
          subst hcceq
          have h1 : ({ cc with status := dto.status, endDate := E } : Contract).isLive = true := by
            rcases hlv with hst | hst <;> simp [Contract.isLive, hst]
          simp [Function.comp, hb, h1, hcLive]
        · simp [Function.comp, hb]
      rw [List.filter_congr hcong]
      exact hbase
    · have hmono : ∀ cc ∈ s.contracts,
          ((fun cc => cc.vehicleId == vid && cc.isLive) ∘
            (fun cc => if cc.id == c.id then { cc with status := dto.status, endDate := E } else cc)) cc = true
            → (fun cc => cc.vehicleId == vid && cc.isLive) cc = true := by
        intro cc hcc hq
        by_cases hb : (cc.id == c.id) = true
        · exfalso
          have hdead : ({ cc with status := dto.status, endDate := E } : Contract).isLive = false := by
            cases hst : dto.status with
            | ACTIVE => exact absurd (Or.inl hst) hlv
            | SUSPENDED => exact absurd (Or.inr hst) hlv
            | COMPLETED => simp [Contract.isLive, hst]
            | TERMINATED => simp [Contract.isLive, hst]
          simp [Function.comp, hb, hdead] at hq
        · simpa [Function.comp, hb] using hq
      calc (s.contracts.filter _).length
          = s.contracts.countP _ := (List.countP_eq_length_filter _ _).symm
        _ ≤ s.contracts.countP (fun cc => cc.vehicleId == vid && cc.isLive) :=
            List.countP_mono_left hmono
        _ = (s.contracts.filter (fun cc => cc.vehicleId == vid && cc.isLive)).length :=
            List.countP_eq_length_filter _ _
        _ ≤ 1 := hbase
  · intro c' hc' hlive' v hv hveq
    rw [hCon] at hc'
    rw [hVeh] at hv
    obtain ⟨cc, hccMem, hccEq⟩ := List.mem_map.mp hc'
    obtain ⟨v0, hv0Mem, hv0Eq⟩ := List.mem_map.mp hv
    have hvId : v.id = v0.id := by
      rw [← hv0Eq]
      by_cases hb : (v0.id == c.vehicleId) = true <;> simp [hb]
    have hc'Vid : c'.vehicleId = cc.vehicleId := by
      rw [← hccEq, hgVid cc]
    by_cases hbv : (v0.id == c.vehicleId) = true
    · have hvSt : v.status = statusVehicleTarget s c dto.status := by
        rw [← hv0Eq]
        simp [hbv]
      by_cases hlv : dto.status = ContractStatus.ACTIVE ∨ dto.status = ContractStatus.SUSPENDED
      · rw [hvSt]
        exact hTgt hlv
      · exfalso
        by_cases hbc : (cc.id == c.id) = true
        · have hcceq : cc = c := row_eq_of_id hInv.conNodup hccMem hcMem (by simpa using hbc)
          subst hcceq
          have hdead : c'.isLive = false := by
            rw [← hccEq]
            cases hst : dto.status with
            | ACTIVE => exact absurd (Or.inl hst) hlv
            | SUSPENDED => exact absurd (Or.inr hst) hlv
            | COMPLETED => simp [Contract.isLive, hbc, hst]
            | TERMINATED => simp [Contract.isLive, hbc, hst]
          rw [hlive'] at hdead
          exact Bool.noConfusion hdead
        · have hc'cc : c' = cc := by
            rw [← hccEq]
            simp [hbc]
          subst hc'cc
          have hccVid : c'.vehicleId = c.vehicleId := by
            have h1 : v0.id = c.vehicleId := by simpa using hbv
            rw [← hveq, hvId, h1]
          have hne : c' ≠ c := by
            intro hx
            rw [hx] at hbc
            simp at hbc
          have hmem1 : c' ∈ s.contracts.filter
              (fun cc => cc.vehicleId == c.vehicleId && cc.isLive) :=
            List.mem_filter.mpr ⟨hccMem, by simp [hccVid, hlive']⟩
          have hmem2 : c ∈ s.contracts.filter
              (fun cc => cc.vehicleId == c.vehicleId && cc.isLive) :=
            List.mem_filter.mpr ⟨hcMem, by simp [hcLive]⟩
          have h2 := two_mem_le_length hmem1 hmem2 hne
          have h1 := hInv.liveLe c.vehicleId
          have h1' : (s.contracts.filter
              (fun cc => cc.vehicleId == c.vehicleId && cc.isLive)).length ≤ 1 := h1
          omega
    · have hvv0 : v = v0 := by
        rw [← hv0Eq]
        simp [hbv]
      subst hvv0
      by_cases hbc : (cc.id == c.id) = true
      · exfalso
        have hcceq : cc = c := row_eq_of_id hInv.conNodup hccMem hcMem (by simpa using hbc)
        subst hcceq
        have h1 : v.id = cc.vehicleId := by rw [hveq, hc'Vid]
        rw [beq_iff_eq] at hbv
        exact hbv h1
      · have hc'cc : c' = cc := by
          rw [← hccEq]
          simp [hbc]
        subst hc'cc
        exact hInv.liveRented c' hccMem hlive' v hv0Mem (by rw [hveq, hc'Vid])

theorem terminal_status_guard_witness :
    contractUpdateStatus cexTermSt "k1"
        { status := ContractStatus.ACTIVE, reason := none, endDate := none }
        cexTermUser 9
      = .error StatusErr.completedIsTerminal ∧
    statusPost cexTermSt "k1"
        { status := ContractStatus.ACTIVE, reason := none, endDate := none }
        cexTermUser 9 = cexTermSt := by
  exact (terminal_status_guard cexTermSt "k1"
      { status := ContractStatus.ACTIVE, reason := none, endDate := none }
      cexTermUser 9
      { id := "k1", driverId := "d1", vehicleId := "v1", companyId := "co",
        dailyRate := 10, deposit := 0, startDate := 0, endDate := some 5,
        status := ContractStatus.COMPLETED }
      rfl rfl).1 rfl

/-- What a successful `remove` tells us: the new state only drops the
removed contract's row. -/
theorem contractRemove_ok_inv {s s' : St} {cid : String} {u : CurrentUser} {c0 : Contract}
    (h : contractRemove s cid u = .ok (s', c0)) :
    s' = { s with contracts := s.contracts.filter (fun cc => !(cc.id == cid)) } := by
  rw [contractRemove] at h
  rcases hc : s.findContract cid with - | c <;> simp only [hc] at h
  · exact Except.noConfusion h
  split_ifs at h <;> try exact Except.noConfusion h
  injection h with h1
  exact (congrArg Prod.fst h1).symm

/-- The inductive invariant holds in every reachable state. -/
theorem reachable_Inv (s : St) (hs : Reachable s) : Inv s := by
  induction hs with
  | init =>
    constructor
    · simp [St.empty]
    · simp [St.empty]
    · intro c hc
      simp [St.empty] at hc
    · intro vid
      simp [liveCount, St.empty]
    · intro c hc
      simp [St.empty] at hc
  | addDriver s1 d hs1 hfresh ih =>
    exact Inv.of_eq s1 _ rfl rfl ih
  | addVehicle s1 v hs1 hfresh ih =>
    constructor
    · show ((s1.vehicles ++ [v]).map Vehicle.id).Nodup
      rw [List.map_append, List.nodup_append]
      refine ⟨ih.vehNodup, List.nodup_singleton _, ?_⟩
      intro a ha hb
      simp only [List.map_cons, List.map_nil, List.mem_singleton] at hb
      obtain ⟨v0, hv0, hv0id⟩ := List.mem_map.mp ha
      exact hfresh v0 hv0 (by rw [hv0id, hb])
    · exact ih.conNodup
    · intro c hc
      obtain ⟨v1, hv1, hid⟩ := ih.fkVeh c hc
      exact ⟨v1, List.mem_append_left _ hv1, hid⟩
    · intro vid
      exact ih.liveLe vid
    · intro c hc hlive v0 hv0 hid
      rcases List.mem_append.mp hv0 with h1 | h1
      · exact ih.liveRented c hc hlive v0 h1 hid
      · exfalso
        rw [List.mem_singleton] at h1
        subst h1
        obtain ⟨v1, hv1, hv1id⟩ := ih.fkVeh c hc
        exact hfresh v1 hv1 (by rw [hv1id, ← hid])
  | createStep s1 s1' dto u now newId c hs1 hfresh h ih =>
    exact Inv_create s1 s1' dto u now newId c hfresh h ih
  | statusStep s1 s1' cid dto u now c hs1 h ih =>
    exact Inv_status s1 s1' cid dto u now c h ih
  | removeStep s1 s1' cid u c hs1 h ih =>
    have hform := contractRemove_ok_inv h
    subst hform
    exact Inv.of_sublist s1 _ rfl (List.filter_sublist _) ih
  | billingStep s1 now fails hs1 ih =>
    exact Inv.of_eq s1 _ (processAll_vehicles s1 now fails) (processAll_contracts s1 now fails) ih

/-- C7 (amended): in every state reachable by the core operations, each
VEHICLE has at most one ACTIVE contract and every ACTIVE contract's
vehicle has status RENTED.  The driver-exclusivity and RENTED-iff left
to the counterexample do NOT hold: a SUSPENDED contract keeps its
vehicle RENTED with zero ACTIVE contracts, and suspend–create–reactivate
gives one driver two ACTIVE contracts. -/
theorem reachable_vehicle_invariant (s : St) (hs : Reachable s) :
    (∀ vid, activeCountV s vid ≤ 1) ∧
    (∀ c ∈ s.contracts, c.status = ContractStatus.ACTIVE →
      ∀ v ∈ s.vehicles, v.id = c.vehicleId → v.status = VehicleStatus.RENTED) := by
  have hInv := reachable_Inv s hs
  constructor
  · intro vid
    have hle := hInv.liveLe vid
    have hsub : activeCountV s vid ≤ liveCount s vid := by
      show (s.contracts.filter
          (fun c => c.vehicleId == vid && c.status == ContractStatus.ACTIVE)).length ≤ _
      rw [← List.countP_eq_length_filter, liveCount, ← List.countP_eq_length_filter]
      apply List.countP_mono_left
      intro c hc hq
      rw [Bool.and_eq_true] at hq ⊢
      refine ⟨hq.1, ?_⟩
      have : c.status = ContractStatus.ACTIVE := by simpa using hq.2
      simp [Contract.isLive, this]
    omega
  · intro c hc hact v hv hid
    exact hInv.liveRented c hc (by simp [Contract.isLive, hact]) v hv hid

theorem reachable_vehicle_invariant_witness :
    activeCountV St.empty "v1" ≤ 1 :=
  (reachable_vehicle_invariant St.empty Reachable.init).1 "v1"

/-- Drivers, vehicles and caller of the C7 counterexample run. -/
def cxD1 : Driver := { id := "d1", companyId := "co", balance := 0, deposit := 0, isActive := true }

/-- Second driver of the C7 counterexample run. -/
def cxD2 : Driver := { id := "d2", companyId := "co", balance := 0, deposit := 0, isActive := true }

/-- Vehicles of the C7 counterexample run. -/
def cxV1 : Vehicle := { id := "v1", companyId := "co", status := VehicleStatus.AVAILABLE }

/-- Second vehicle. -/
def cxV2 : Vehicle := { id := "v2", companyId := "co", status := VehicleStatus.AVAILABLE }

/-- Third vehicle. -/
def cxV3 : Vehicle := { id := "v3", companyId := "co", status := VehicleStatus.AVAILABLE }

/-- Caller of the C7 counterexample run. -/
def cxU : CurrentUser :=
  { id := "u1", role := UserRole.COMPANY_ADMIN, companyId := some "co", userType := "staff" }

/-- Creation dto used in the C7 counterexample run. -/
def cxDto (did vid : String) : CreateContractDto :=
  { driverId := did, vehicleId := vid, dailyRate := 1, deposit := 0,
    startDate := 0, endDate := none, status := none, companyId := none }

/-- Suspension dto. -/
def cxSus : UpdateStatusDto := { status := ContractStatus.SUSPENDED, reason := none, endDate := none }

/-- Re-activation dto. -/
def cxAct : UpdateStatusDto := { status := ContractStatus.ACTIVE, reason := none, endDate := none }

/-- Contract row "k1" (driver d1 on vehicle v1). -/
def cxK1 : Contract :=
  { id := "k1", driverId := "d1", vehicleId := "v1", companyId := "co",
    dailyRate := 1, deposit := 0, startDate := 0, endDate := none,
    status := ContractStatus.ACTIVE }

/-- Contract row "k2" (driver d1 on vehicle v2). -/
def cxK2 : Contract :=
  { id := "k2", driverId := "d1", vehicleId := "v2", companyId := "co",
    dailyRate := 1, deposit := 0, startDate := 0, endDate := none,
    status := ContractStatus.ACTIVE }

/-- Contract row "k3" (driver d2 on vehicle v3). -/
def cxK3 : Contract :=
  { id := "k3", driverId := "d2", vehicleId := "v3", companyId := "co",
    dailyRate := 1, deposit := 0, startDate := 0, endDate := none,
    status := ContractStatus.ACTIVE }

/-- The final state of the C7 counterexample run: contracts k1 and k2 of
driver d1 both ACTIVE, contract k3 SUSPENDED on vehicle v3 which stays
RENTED. -/
def cxFinal : St :=
  { drivers := [cxD1, cxD2]
    vehicles := [{ cxV1 with status := VehicleStatus.RENTED },
                 { cxV2 with status := VehicleStatus.RENTED },
                 { cxV3 with status := VehicleStatus.RENTED }]
    contracts := [cxK1, cxK2, { cxK3 with status := ContractStatus.SUSPENDED }]
    payments := [] }

/-- Intermediate states of the C7 counterexample run. -/
def cxS1 : St := { drivers := [cxD1], vehicles := [], contracts := [], payments := [] }

/-- After registering both drivers. -/
def cxS2 : St := { drivers := [cxD1, cxD2], vehicles := [], contracts := [], payments := [] }

/-- After registering vehicle v1. -/
def cxS3 : St := { drivers := [cxD1, cxD2], vehicles := [cxV1], contracts := [], payments := [] }

/-- After registering vehicle v2. -/
def cxS4 : St := { drivers := [cxD1, cxD2], vehicles := [cxV1, cxV2], contracts := [], payments := [] }

/-- After registering vehicle v3. -/
def cxS5 : St := { drivers := [cxD1, cxD2], vehicles := [cxV1, cxV2, cxV3], contracts := [], payments := [] }

/-- After creating contract k1. -/
def cxS6 : St :=
  { drivers := [cxD1, cxD2]
    vehicles := [{ cxV1 with status := VehicleStatus.RENTED }, cxV2, cxV3]
    contracts := [cxK1]
    payments := [] }

/-- After suspending k1. -/
def cxS7 : St :=
  { drivers := [cxD1, cxD2]
    vehicles := [{ cxV1 with status := VehicleStatus.RENTED }, cxV2, cxV3]
    contracts := [{ cxK1 with status := ContractStatus.SUSPENDED }]
    payments := [] }

/-- After creating contract k2 for the same driver d1. -/
def cxS8 : St :=
  { drivers := [cxD1, cxD2]
    vehicles := [{ cxV1 with status := VehicleStatus.RENTED },
                 { cxV2 with status := VehicleStatus.RENTED }, cxV3]
    contracts := [{ cxK1 with status := ContractStatus.SUSPENDED }, cxK2]
    payments := [] }

/-- After re-activating k1: d1 now holds two ACTIVE contracts. -/
def cxS9 : St :=
  { drivers := [cxD1, cxD2]
    vehicles := [{ cxV1 with status := VehicleStatus.RENTED },
                 { cxV2 with status := VehicleStatus.RENTED }, cxV3]
    contracts := [cxK1, cxK2]
    payments := [] }

/-- After creating contract k3. -/
def cxS10 : St :=
  { drivers := [cxD1, cxD2]
    vehicles := [{ cxV1 with status := VehicleStatus.RENTED },
                 { cxV2 with status := VehicleStatus.RENTED },
                 { cxV3 with status := VehicleStatus.RENTED }]
    contracts := [cxK1, cxK2, cxK3]
    payments := [] }

/-- C7 (counterexample): a state reachable by core operations alone
(suspend k1, create k2 for the same driver, reactivate k1; suspend k3)
has a driver with TWO ACTIVE contracts and a RENTED vehicle with ZERO
ACTIVE contracts, refuting the claimed invariant. -/
theorem reachable_invariant_counterexample :
    Reachable cxFinal ∧
    activeCountD cxFinal "d1" = 2 ∧
    vehStatusIn cxFinal "v3" = some VehicleStatus.RENTED ∧
    activeCountV cxFinal "v3" = 0 := by
  refine ⟨?_, by decide, rfl, by decide⟩
  have h0 : Reachable St.empty := Reachable.init
  have h1 : Reachable cxS1 :=
    Reachable.addDriver St.empty cxD1 h0 (by intro d0 hd0; exact absurd hd0 (List.not_mem_nil d0))
  have h2 : Reachable cxS2 := Reachable.addDriver cxS1 cxD2 h1 (by decide)
  have h3 : Reachable cxS3 := Reachable.addVehicle cxS2 cxV1 h2 (by decide)
  have h4 : Reachable cxS4 := Reachable.addVehicle cxS3 cxV2 h3 (by decide)
  have h5 : Reachable cxS5 := Reachable.addVehicle cxS4 cxV3 h4 (by decide)
  have h6 : Reachable cxS6 :=
    Reachable.createStep cxS5 cxS6 (cxDto "d1" "v1") cxU 0 "k1" cxK1 h5 (by decide) rfl
  have h7 : Reachable cxS7 :=
    Reachable.statusStep cxS6 cxS7 "k1" cxSus cxU 0
      { cxK1 with status := ContractStatus.SUSPENDED } h6 rfl
  have h8 : Reachable cxS8 :=
    Reachable.createStep cxS7 cxS8 (cxDto "d1" "v2") cxU 0 "k2" cxK2 h7 (by decide) rfl
  have h9 : Reachable cxS9 :=
    Reachable.statusStep cxS8 cxS9 "k1" cxAct cxU 0 cxK1 h8 rfl
  have h10 : Reachable cxS10 :=
    Reachable.createStep cxS9 cxS10 (cxDto "d2" "v3") cxU 0 "k3" cxK3 h9 (by decide) rfl
  exact Reachable.statusStep cxS10 cxFinal "k3" cxSus cxU 0
    { cxK3 with status := ContractStatus.SUSPENDED } h10 rfl

end Fleet
